import Mathlib

/-!
Shallow embedding of the zenlink canvas-node core: the asset ledger
(`src/zenlink/assets/src/lib.rs`) and the Uniswap-V1-style dex
(`src/zenlink/dex/src/lib.rs`).

Modelling conventions:
* `AccountId`, `AssetId`, `ExchangeId`, block numbers are `Nat`.
  `AssetId` and `ExchangeId` are generic (`AtLeast32Bit`) in the source and
  their concrete runtime types are not in the repository; they are modelled
  as unbounded naturals (the spec states asset ids are never reused).
* `Balance` is `u128` (`primitives/src/lib.rs`: `pub type Balance = u128`).
  The ledger credits balances with an unchecked `+=`
  (`<Balances<T>>::mutate((id, target), |balance| *balance += amount)`),
  which in a release build wraps modulo `2^128`; the model writes that
  wrap explicitly as `% W128`.
* Storage maps are association lists with "absent means zero/none"
  semantics, updated by remove-then-cons, mirroring `insert`/`mutate`
  on Substrate storage maps.
* Each dispatchable is a function `St → Except Err Unit × St`.  Dispatch in
  this Substrate-2.0-era code base is NOT transactional (the dex source
  carries a `// TODO: transaction` comment): storage writes made before a
  failing sub-call persist, which the embedding reflects by returning the
  partially updated state together with the error.
* The dex calls internal ledger entry points (`inner_issue`, `inner_mint`,
  `inner_burn`, `inner_transfer`, `inner_transfer_from`) that belong to a
  newer revision of the assets pallet that is not part of the given
  sources; those are modelled from the spec (§4.A "Internal"), see the
  individual doc comments.
* The host currency capability and sub-account derivation are external
  collaborators and are likewise modelled from the spec (§5, §6).
-/

/-- `2^128`, the modulus of the `u128` ledger balance type. -/
def W128 : Nat := 2 ^ 128

/-- `u64::MAX`, the saturation bound of the dex `convert`/`unconvert` casts. -/
def u64Max : Nat := 2 ^ 64 - 1

/-- Lookup in an association list (`None` when the key is absent),
mirroring `StorageMap::get` for an `Option`-valued map. -/
def alookup {κ α : Type} [DecidableEq κ] (m : List (κ × α)) (k : κ) : Option α :=
  match m with
  | [] => none
  | p :: rest => if p.1 = k then some p.2 else alookup rest k

/-- Remove every entry with the given key. -/
def aerase {κ α : Type} [DecidableEq κ] (m : List (κ × α)) (k : κ) : List (κ × α) :=
  match m with
  | [] => []
  | p :: rest => if p.1 = k then aerase rest k else p :: aerase rest k

/-- `StorageMap::insert`: overwrite the value at a key. -/
def aset {κ α : Type} [DecidableEq κ] (m : List (κ × α)) (k : κ) (v : α) : List (κ × α) :=
  (k, v) :: aerase m k

/-- Lookup in a `Nat`-valued association list with default `0`
(Substrate `ValueQuery` storage maps return the default when absent). -/
def lookup0 {κ : Type} [DecidableEq κ] (m : List (κ × Nat)) (k : κ) : Nat :=
  (alookup m k).getD 0

/-- Sum of the balances recorded for one asset id over all accounts:
`Σ balances(id, ·)`. -/
def sum_for (m : List ((Nat × Nat) × Nat)) (id : Nat) : Nat :=
  match m with
  | [] => 0
  | p :: rest => (if p.1.1 = id then p.2 else 0) + sum_for rest id

/-- The keys of an association list are pairwise distinct.  All updates go
through `aset`, which erases the key first, so this is invariant. -/
def nodup_keys {κ α : Type} (m : List (κ × α)) : Prop :=
  (m.map Prod.fst).Nodup

/-- Asset metadata (`assets/src/lib.rs`: 16-byte name, 8-byte symbol,
decimals); byte strings are modelled as lists of byte values. -/
structure AssetInfo where
  name : List Nat
  symbol : List Nat
  decimals : Nat
deriving DecidableEq, Repr

/-- The ZLK liquidity-token metadata constant from `dex/src/lib.rs`
(name `liquidity_zlk_v1`, symbol `ZLK\0\0\0\0\0`, decimals 0). -/
def zlk_info : AssetInfo :=
  { name := [108, 105, 113, 117, 105, 100, 105, 116, 121, 95, 122, 108, 107, 95, 118, 49]
    symbol := [90, 76, 75, 0, 0, 0, 0, 0]
    decimals := 0 }

/-- A dex pool record (`Exchange` in `dex/src/lib.rs`). -/
structure Exchange where
  token_id : Nat
  liquidity_id : Nat
  account : Nat
deriving DecidableEq, Repr

/-- Dispatch errors of the assets pallet, the dex pallet, and the host
currency capability, merged into one type. -/
inductive Err where
  | AmountZero | BalanceLow | BalanceZero | AllowanceLow | Overflow
  | Deadline | TokenNotExists | ZeroTokens | ZeroCurrency
  | ExchangeNotExists | ExchangeAlreadyExists | RequestedZeroLiquidity
  | TooManyTokens | TooLowLiquidity | BurnZeroShares | NoLiquidity
  | NotEnoughCurrency | NotEnoughTokens | TooExpensiveCurrency
  | TooExpensiveTokens
  | InsufficientBalance | KeepAlive
deriving DecidableEq, Repr

/-- Deposited events of both pallets, with the payload field order of the
source `decl_event!` blocks. -/
inductive Event where
  | Issued (asset_id owner total : Nat)
  | Transferred (asset_id from_ to_ amount : Nat)
  | Approval (asset_id owner spender amount : Nat)
  | ExchangeCreated (exchange_id account : Nat)
  | LiquidityAdded (exchange_id account currency_input token_input : Nat)
  | LiquidityRemoved (exchange_id account currency_output token_output : Nat)
  | CurrencyPurchase (exchange_id buyer currency_bought tokens_sold recipient : Nat)
  | TokenPurchase (exchange_id buyer currency_sold tokens_bought recipient : Nat)
  | OtherTokenPurchase (exchange_id other_exchange_id buyer tokens_sold other_tokens_bought recipient : Nat)
deriving DecidableEq, Repr

/-- The combined on-chain state seen by the two pallets: the assets
pallet's storage, the dex's storage, the host currency's free balances,
the block number, and the deposited events (newest first). -/
structure St where
  balances : List ((Nat × Nat) × Nat)
  allowances : List ((Nat × Nat × Nat) × Nat)
  total_supply : List (Nat × Nat)
  asset_infos : List (Nat × AssetInfo)
  next_asset_id : Nat
  free : List (Nat × Nat)
  exchanges : List (Nat × Exchange)
  token_to_exchange : List (Nat × Nat)
  next_exchange_id : Nat
  block_number : Nat
  events : List Event

/-- `true` iff a dispatch result is `Ok`. -/
def isOk {α : Type} : Except Err α → Bool
  | .ok _ => true
  | .error _ => false

/-- The error of a dispatch result, if any. -/
def errOf {α : Type} : Except Err α → Option Err
  | .ok _ => none
  | .error e => some e

/-- Sequencing of dispatch steps: on error the (possibly partially
updated) state and the error are propagated, mirroring Rust `?` under
non-transactional dispatch. -/
def andThen (x : Except Err Unit × St) (f : St → Except Err Unit × St) :
    Except Err Unit × St :=
  match x with
  | (.ok _, st) => f st
  | (.error e, st) => (.error e, st)

/-- Append an event (`Self::deposit_event`). -/
def push_event (e : Event) (st : St) : St :=
  { st with events := e :: st.events }

/-! ## Asset ledger (`assets/src/lib.rs`) -/

/-- `fn issue(origin, total, asset_info)`: allocate `next_asset_id`,
bump the counter, credit the whole supply to the caller, record the
metadata, emit `Issued`.  It has no failure path after origin
authentication. -/
def issue (origin total : Nat) (info : AssetInfo) (st : St) :
    Except Err Unit × St :=
  let id := st.next_asset_id
  (.ok (), { st with
    next_asset_id := id + 1
    balances := aset st.balances (id, origin) total
    total_supply := aset st.total_supply id total
    asset_infos := aset st.asset_infos id info
    events := .Issued id origin total :: st.events })

/-- `fn transfer(origin, id, target, amount)`: fails `AmountZero` on a
zero amount and `BalanceLow` when the caller's balance is short;
otherwise emits `Transferred`, debits the caller, and credits the target
with an unchecked `+=` (wrapping modulo `2^128` in a release build). -/
def transfer (origin id target amount : Nat) (st : St) :
    Except Err Unit × St :=
  let origin_balance := lookup0 st.balances (id, origin)
  if amount = 0 then (.error .AmountZero, st)
  else if origin_balance < amount then (.error .BalanceLow, st)
  else
    let st1 := { st with events := .Transferred id origin target amount :: st.events }
    let st2 := { st1 with balances := aset st1.balances (id, origin) (origin_balance - amount) }
    (.ok (), { st2 with
      balances := aset st2.balances (id, target)
        ((lookup0 st2.balances (id, target) + amount) % W128) })

/-- `fn allow(origin, id, spender, amount)`: emit `Approval` and
overwrite the allowance entry (no failure path). -/
def allow (owner id spender amount : Nat) (st : St) :
    Except Err Unit × St :=
  (.ok (), { st with
    events := .Approval id owner spender amount :: st.events
    allowances := aset st.allowances (id, owner, spender) amount })

/-- `fn transfer_from(origin, id, from, target, amount)`: fails
`AllowanceLow` when the spender's allowance is short; otherwise the
decremented allowance is WRITTEN FIRST and then the inner `transfer`
(with the owner as source) runs — if that inner transfer fails, the
allowance write has already happened and persists. -/
def transfer_from (spender id owner target amount : Nat) (st : St) :
    Except Err Unit × St :=
  let allowance := lookup0 st.allowances (id, owner, spender)
  if allowance < amount then (.error .AllowanceLow, st)
  else
    let st1 := { st with
      allowances := aset st.allowances (id, owner, spender) (allowance - amount) }
    transfer owner id target amount st1

/-- Modelled from the spec: `transfer_inner(id, from, to, amount)`
(§4.A Internal), called by the dex but absent from the given assets
sources — "same semantics as the public operations but callable without
an origin signature". -/
def inner_transfer (id from_ to_ amount : Nat) (st : St) :
    Except Err Unit × St :=
  transfer from_ id to_ amount st

/-- Modelled from the spec: the delegated internal transfer (§4.A
Internal), absent from the given assets sources.  Argument roles are
fixed by the dex call sites (`inner_transfer_from(&token_id, &who,
&exchange.account, &exchange.account, amount)`) together with the dex
tests, where the caller pre-approves the exchange account: the second
argument is the owner whose balance is debited, the third the spender
whose allowance (owner → spender) is drawn down. -/
def inner_transfer_from (id from_ spender to_ amount : Nat) (st : St) :
    Except Err Unit × St :=
  transfer_from spender id from_ to_ amount st

/-- Modelled from the spec: `mint(id, to, amount)` (§4.A Internal),
absent from the given assets sources — "increments `balances[(id,to)]`
and `total_supply[id]`; fails `Overflow` if either would wrap". -/
def inner_mint (id to_ amount : Nat) (st : St) : Except Err Unit × St :=
  let b := lookup0 st.balances (id, to_)
  let t := lookup0 st.total_supply id
  if b + amount < W128 ∧ t + amount < W128 then
    (.ok (), { st with
      balances := aset st.balances (id, to_) (b + amount)
      total_supply := aset st.total_supply id (t + amount) })
  else (.error .Overflow, st)

/-- Modelled from the spec: `burn(id, from, amount)` (§4.A Internal),
absent from the given assets sources — "decrements both; fails
`BalanceLow`". -/
def inner_burn (id from_ amount : Nat) (st : St) : Except Err Unit × St :=
  let b := lookup0 st.balances (id, from_)
  if b < amount then (.error .BalanceLow, st)
  else
    (.ok (), { st with
      balances := aset st.balances (id, from_) (b - amount)
      total_supply := aset st.total_supply id (lookup0 st.total_supply id - amount) })

/-- Modelled from the spec: `mint_asset(issuer, total, info) → AssetId`
(§4.A Internal, `inner_issue` at the dex call site), absent from the
given assets sources — "like `issue` but attributes balance to an
arbitrary issuer".  Like `issue` it cannot fail. -/
def inner_issue (issuer total : Nat) (info : AssetInfo) (st : St) : Nat × St :=
  let id := st.next_asset_id
  (id, { st with
    next_asset_id := id + 1
    balances := aset st.balances (id, issuer) total
    total_supply := aset st.total_supply id total
    asset_infos := aset st.asset_infos id info
    events := .Issued id issuer total :: st.events })

/-! ## Host currency capability and account derivation -/

/-- Modelled from the spec: the host's existential deposit (§5 "the
source account must retain at least the host's existential deposit");
its concrete value lives in the runtime, outside the given sources. -/
def existential_deposit : Nat := 1

/-- Modelled from the spec: the host currency capability
`transfer(from, to, amount, liveness)` (§6), "returning success or a
`KeepAlive`/`InsufficientBalance` failure"; with `keep_alive` the source
must retain the existential deposit (§5). -/
def currency_transfer (from_ to_ amount : Nat) (keep_alive : Bool) (st : St) :
    Except Err Unit × St :=
  let fb := lookup0 st.free from_
  if fb < amount then (.error .InsufficientBalance, st)
  else if keep_alive = true ∧ fb - amount < existential_deposit then
    (.error .KeepAlive, st)
  else
    let st1 := { st with free := aset st.free from_ (fb - amount) }
    (.ok (), { st1 with free := aset st1.free to_ (lookup0 st1.free to_ + amount) })

/-- Modelled from the spec: deterministic, pool-collision-free
sub-account derivation from the module tag and the exchange id (§6,
`T::ModuleId::get().into_sub_account(exchange_id)` in the source); the
concrete encoding lives in the host. -/
def sub_account (exchange_id : Nat) : Nat := 2 ^ 64 + exchange_id

/-! ## Dex pricing and conversions (`dex/src/lib.rs`) -/

/-- `v.saturated_into::<u64>()`: saturating cast to `u64`. -/
def satU64 (v : Nat) : Nat := if v ≤ u64Max then v else u64Max

/-- `fn convert(balance_of)`: `BalanceOf → TokenBalance` via a saturating
cast through `u64` (`let m = balance_of.saturated_into::<u64>();
m.saturated_into()` — the second cast widens and is the identity). -/
def convert (balance_of : Nat) : Nat := satU64 balance_of

/-- `fn unconvert(token_balance)`: `TokenBalance → BalanceOf` via the same
saturating cast through `u64`. -/
def unconvert (token_balance : Nat) : Nat := satU64 token_balance

/-- `fn get_input_price(input_amount, input_reserve, output_reserve)`:
`(in·997 · out_res) / (in_res·1000 + in·997)`, floor division.
The products are exact naturals here; the spec (§4.E) requires a widened
integer type so that these intermediates cannot wrap in the supported
domain. -/
def get_input_price (input_amount input_reserve output_reserve : Nat) : Nat :=
  let input_amount_with_fee := input_amount * 997
  let numerator := input_amount_with_fee * output_reserve
  let denominator := input_reserve * 1000 + input_amount_with_fee
  numerator / denominator

/-- `fn get_output_price(output_amount, input_reserve, output_reserve)`:
`(in_res·out·1000) / ((out_res − out)·997) + 1`.  Valid on the spec's
domain `out_res > out` (§4.E); outside it the source subtraction would
wrap or panic. -/
def get_output_price (output_amount input_reserve output_reserve : Nat) : Nat :=
  let numerator := input_reserve * output_amount * 1000
  let denominator := (output_reserve - output_amount) * 997
  numerator / denominator + 1

/-- `fn get_token_reserve(exchange)`: the pool account's balance of the
paired token. -/
def get_token_reserve (ex : Exchange) (st : St) : Nat :=
  lookup0 st.balances (ex.token_id, ex.account)

/-- `fn get_currency_reserve(exchange)`: the pool account's free currency
balance. -/
def get_currency_reserve (ex : Exchange) (st : St) : Nat :=
  lookup0 st.free ex.account

/-! ## Dex dispatchables (`dex/src/lib.rs`) -/

/-- `pub fn create_exchange(origin, token_id)`: requires the token to
exist and no exchange for it yet; allocates the next exchange id
(`checked_add`, which on the unbounded model ids cannot fail), derives
the pool sub-account, issues the fresh ZLK liquidity asset with zero
supply, records the pool, and emits `ExchangeCreated`. -/
def create_exchange (origin token_id : Nat) (st : St) :
    Except Err Unit × St :=
  if (alookup st.asset_infos token_id).isSome then
    if (alookup st.token_to_exchange token_id).isNone then
      let exchange_id := st.next_exchange_id
      let next_id := exchange_id + 1
      let account := sub_account exchange_id
      let p := inner_issue account 0 zlk_info st
      (.ok (), { p.2 with
        token_to_exchange := aset p.2.token_to_exchange token_id exchange_id
        exchanges := aset p.2.exchanges exchange_id
          { token_id := token_id, liquidity_id := p.1, account := account }
        next_exchange_id := next_id
        events := .ExchangeCreated exchange_id account :: p.2.events })
    else (.error .ExchangeAlreadyExists, st)
  else (.error .TokenNotExists, st)

/-- `pub fn add_liquidity(origin, exchange_id, currency_amount,
min_liquidity, max_tokens, deadline)`: strict deadline (`deadline > now`);
with existing liquidity the token deposit is
`convert(currency_amount) * token_reserve / convert(currency_reserve)`
and the shares minted
`convert(currency_amount) * total_liquidity / convert(currency_reserve)`
(both floor divisions); on a fresh pool the deposit is `max_tokens` and
the initial shares equal the pool account's post-transfer free currency
balance saturated into `u64`. -/
def add_liquidity (origin exchange_id currency_amount min_liquidity max_tokens deadline : Nat)
    (st : St) : Except Err Unit × St :=
  if deadline > st.block_number then
    if max_tokens > 0 then
      if currency_amount > 0 then
        match alookup st.exchanges exchange_id with
        | some exchange =>
          let total_liquidity := lookup0 st.total_supply exchange.liquidity_id
          if total_liquidity > 0 then
            if min_liquidity > 0 then
              let currency_reserve := convert (get_currency_reserve exchange st)
              let token_reserve := get_token_reserve exchange st
              let token_amount := convert currency_amount * token_reserve / currency_reserve
              let liquidity_minted := convert currency_amount * total_liquidity / currency_reserve
              if max_tokens ≥ token_amount then
                if liquidity_minted ≥ min_liquidity then
                  andThen (currency_transfer origin exchange.account currency_amount true st)
                    (fun st1 =>
                  andThen (inner_mint exchange.liquidity_id origin liquidity_minted st1)
                    (fun st2 =>
                  andThen (inner_transfer_from exchange.token_id origin exchange.account
                      exchange.account token_amount st2)
                    (fun st3 =>
                  (.ok (), push_event
                    (.LiquidityAdded exchange_id origin currency_amount token_amount) st3))))
                else (.error .TooLowLiquidity, st)
              else (.error .TooManyTokens, st)
            else (.error .RequestedZeroLiquidity, st)
          else
            let token_amount := max_tokens
            andThen (currency_transfer origin exchange.account currency_amount true st)
              (fun st1 =>
            let initial_liquidity := satU64 (lookup0 st1.free exchange.account)
            andThen (inner_mint exchange.liquidity_id origin initial_liquidity st1)
              (fun st2 =>
            andThen (inner_transfer_from exchange.token_id origin exchange.account
                exchange.account token_amount st2)
              (fun st3 =>
            (.ok (), push_event
              (.LiquidityAdded exchange_id origin currency_amount token_amount) st3))))
        | none => (.error .ExchangeNotExists, st)
      else (.error .ZeroCurrency, st)
    else (.error .ZeroTokens, st)
  else (.error .Deadline, st)

/-- `pub fn remove_liquidity(origin, exchange_id, zlk_to_burn,
min_currency, min_tokens, deadline)`: strict deadline; computes the
proportional currency and token withdrawals (floor), burns the shares,
pays currency allow-death and tokens directly. -/
def remove_liquidity (origin exchange_id zlk_to_burn min_currency min_tokens deadline : Nat)
    (st : St) : Except Err Unit × St :=
  if deadline > st.block_number then
    if zlk_to_burn > 0 then
      match alookup st.exchanges exchange_id with
      | some exchange =>
        let total_liquidity := lookup0 st.total_supply exchange.liquidity_id
        if total_liquidity > 0 then
          let token_reserve := get_token_reserve exchange st
          let currency_reserve := get_currency_reserve exchange st
          let currency_amount := zlk_to_burn * convert currency_reserve / total_liquidity
          let token_amount := zlk_to_burn * token_reserve / total_liquidity
          if unconvert currency_amount ≥ min_currency then
            if token_amount ≥ min_tokens then
              andThen (inner_burn exchange.liquidity_id origin zlk_to_burn st) (fun st1 =>
              andThen (currency_transfer exchange.account origin
                  (unconvert currency_amount) false st1) (fun st2 =>
              andThen (inner_transfer exchange.token_id exchange.account origin
                  token_amount st2) (fun st3 =>
              (.ok (), push_event
                (.LiquidityRemoved exchange_id origin (unconvert currency_amount) token_amount)
                st3))))
            else (.error .NotEnoughTokens, st)
          else (.error .NotEnoughCurrency, st)
        else (.error .NoLiquidity, st)
      | none => (.error .ExchangeNotExists, st)
    else (.error .BurnZeroShares, st)
  else (.error .Deadline, st)

/-- `pub fn currency_to_tokens_input(origin, exchange_id, currency_sold,
min_tokens, deadline, recipient)`: exact-in currency→token swap.  NOTE:
this variant checks `ensure!(deadline > now)` (strict), unlike the other
five swap variants. -/
def currency_to_tokens_input (origin exchange_id currency_sold min_tokens deadline recipient : Nat)
    (st : St) : Except Err Unit × St :=
  if deadline > st.block_number then
    if currency_sold > 0 then
      if min_tokens > 0 then
        match alookup st.exchanges exchange_id with
        | some exchange =>
          let token_reserve := get_token_reserve exchange st
          let currency_reserve := get_currency_reserve exchange st
          let tokens_bought :=
            get_input_price (convert currency_sold) (convert currency_reserve) token_reserve
          if tokens_bought ≥ min_tokens then
            andThen (currency_transfer origin exchange.account currency_sold true st)
              (fun st1 =>
            andThen (inner_transfer exchange.token_id exchange.account recipient
                tokens_bought st1)
              (fun st2 =>
            (.ok (), push_event
              (.TokenPurchase exchange_id origin currency_sold tokens_bought recipient) st2)))
          else (.error .NotEnoughTokens, st)
        | none => (.error .ExchangeNotExists, st)
      else (.error .ZeroTokens, st)
    else (.error .ZeroCurrency, st)
  else (.error .Deadline, st)

/-- `pub fn currency_to_tokens_output(origin, exchange_id, tokens_bought,
max_currency, deadline, recipient)`: exact-out currency→token swap,
inclusive deadline (`deadline >= now`). -/
def currency_to_tokens_output (origin exchange_id tokens_bought max_currency deadline recipient : Nat)
    (st : St) : Except Err Unit × St :=
  if deadline ≥ st.block_number then
    if tokens_bought > 0 then
      if max_currency > 0 then
        match alookup st.exchanges exchange_id with
        | some exchange =>
          let token_reserve := get_token_reserve exchange st
          let currency_reserve := get_currency_reserve exchange st
          let currency_sold :=
            get_output_price tokens_bought (convert currency_reserve) token_reserve
          if unconvert currency_sold ≤ max_currency then
            andThen (currency_transfer origin exchange.account (unconvert currency_sold) true st)
              (fun st1 =>
            andThen (inner_transfer exchange.token_id exchange.account recipient
                tokens_bought st1)
              (fun st2 =>
            (.ok (), push_event
              (.TokenPurchase exchange_id origin (unconvert currency_sold) tokens_bought recipient)
              st2)))
          else (.error .TooExpensiveCurrency, st)
        | none => (.error .ExchangeNotExists, st)
      else (.error .ZeroCurrency, st)
    else (.error .ZeroTokens, st)
  else (.error .Deadline, st)

/-- `pub fn tokens_to_currency_input(origin, exchange_id, tokens_sold,
min_currency, deadline, recipient)`: exact-in token→currency swap,
inclusive deadline; the pool pays currency to the recipient allow-death
and pulls the caller's tokens by delegated transfer. -/
def tokens_to_currency_input (origin exchange_id tokens_sold min_currency deadline recipient : Nat)
    (st : St) : Except Err Unit × St :=
  if deadline ≥ st.block_number then
    if tokens_sold > 0 then
      if min_currency > 0 then
        match alookup st.exchanges exchange_id with
        | some exchange =>
          let token_reserve := get_token_reserve exchange st
          let currency_reserve := get_currency_reserve exchange st
          let currency_bought :=
            get_input_price tokens_sold token_reserve (convert currency_reserve)
          if currency_bought ≥ convert min_currency then
            andThen (currency_transfer exchange.account recipient
                (unconvert currency_bought) false st)
              (fun st1 =>
            andThen (inner_transfer_from exchange.token_id origin exchange.account
                exchange.account tokens_sold st1)
              (fun st2 =>
            (.ok (), push_event
              (.CurrencyPurchase exchange_id origin (unconvert currency_bought) tokens_sold
                recipient) st2)))
          else (.error .NotEnoughCurrency, st)
        | none => (.error .ExchangeNotExists, st)
      else (.error .ZeroCurrency, st)
    else (.error .ZeroTokens, st)
  else (.error .Deadline, st)

/-- `pub fn tokens_to_currency_output(origin, exchange_id,
currency_bought, max_tokens, deadline, recipient)`: exact-out
token→currency swap, inclusive deadline.  As in the source (lines
462–463), the currency is paid to the BUYER and the tokens are pulled
from the RECIPIENT by delegated transfer. -/
def tokens_to_currency_output (origin exchange_id currency_bought max_tokens deadline recipient : Nat)
    (st : St) : Except Err Unit × St :=
  if deadline ≥ st.block_number then
    if max_tokens > 0 then
      if currency_bought > 0 then
        match alookup st.exchanges exchange_id with
        | some exchange =>
          let token_reserve := get_token_reserve exchange st
          let currency_reserve := get_currency_reserve exchange st
          let tokens_sold :=
            get_output_price (convert currency_bought) token_reserve (convert currency_reserve)
          if max_tokens ≥ tokens_sold then
            andThen (currency_transfer exchange.account origin currency_bought false st)
              (fun st1 =>
            andThen (inner_transfer_from exchange.token_id recipient exchange.account
                exchange.account tokens_sold st1)
              (fun st2 =>
            (.ok (), push_event
              (.CurrencyPurchase exchange_id origin currency_bought tokens_sold recipient) st2)))
          else (.error .TooExpensiveTokens, st)
        | none => (.error .ExchangeNotExists, st)
      else (.error .ZeroCurrency, st)
    else (.error .ZeroTokens, st)
  else (.error .Deadline, st)

/-- `pub fn token_to_token_input(origin, exchange_id, other_exchange_id,
tokens_sold, min_other_tokens, deadline, recipient)`: two-hop exact-in
swap through the currency, inclusive deadline. -/
def token_to_token_input
    (origin exchange_id other_exchange_id tokens_sold min_other_tokens deadline recipient : Nat)
    (st : St) : Except Err Unit × St :=
  if deadline ≥ st.block_number then
    if tokens_sold > 0 then
      if min_other_tokens > 0 then
        match alookup st.exchanges exchange_id, alookup st.exchanges other_exchange_id with
        | some exchange, some other_exchange =>
          let token_reserve := get_token_reserve exchange st
          let currency_reserve := get_currency_reserve exchange st
          let currency_bought :=
            get_input_price tokens_sold token_reserve (convert currency_reserve)
          let other_token_reserve := get_token_reserve other_exchange st
          let other_currency_reserve := get_currency_reserve other_exchange st
          let other_tokens_bought :=
            get_input_price currency_bought (convert other_currency_reserve) other_token_reserve
          if other_tokens_bought ≥ min_other_tokens then
            andThen (inner_transfer_from exchange.token_id origin exchange.account
                exchange.account tokens_sold st)
              (fun st1 =>
            andThen (currency_transfer exchange.account other_exchange.account
                (unconvert currency_bought) true st1)
              (fun st2 =>
            andThen (inner_transfer other_exchange.token_id other_exchange.account recipient
                other_tokens_bought st2)
              (fun st3 =>
            (.ok (), push_event
              (.OtherTokenPurchase exchange_id other_exchange_id origin tokens_sold
                other_tokens_bought recipient) st3))))
          else (.error .NotEnoughTokens, st)
        | _, _ => (.error .ExchangeNotExists, st)
      else (.error .ZeroTokens, st)
    else (.error .ZeroTokens, st)
  else (.error .Deadline, st)

/-- `pub fn token_to_token_output(origin, exchange_id, other_exchange_id,
other_tokens_bought, max_tokens, deadline, recipient)`: two-hop exact-out
swap through the currency, inclusive deadline. -/
def token_to_token_output
    (origin exchange_id other_exchange_id other_tokens_bought max_tokens deadline recipient : Nat)
    (st : St) : Except Err Unit × St :=
  if deadline ≥ st.block_number then
    if other_tokens_bought > 0 then
      if max_tokens > 0 then
        match alookup st.exchanges exchange_id, alookup st.exchanges other_exchange_id with
        | some exchange, some other_exchange =>
          let other_tokens_reserve := get_token_reserve other_exchange st
          let other_currency_reserve := get_currency_reserve other_exchange st
          let currency_sold :=
            get_output_price other_tokens_bought (convert other_currency_reserve)
              other_tokens_reserve
          let token_reserve := get_token_reserve exchange st
          let currency_reserve := get_currency_reserve exchange st
          let tokens_sold :=
            get_output_price currency_sold token_reserve (convert currency_reserve)
          if max_tokens ≥ tokens_sold then
            andThen (inner_transfer_from exchange.token_id origin exchange.account
                exchange.account tokens_sold st)
              (fun st1 =>
            andThen (currency_transfer exchange.account other_exchange.account
                (unconvert currency_sold) true st1)
              (fun st2 =>
            andThen (inner_transfer other_exchange.token_id other_exchange.account recipient
                other_tokens_bought st2)
              (fun st3 =>
            (.ok (), push_event
              (.OtherTokenPurchase exchange_id other_exchange_id origin tokens_sold
                other_tokens_bought recipient) st3))))
          else (.error .TooExpensiveTokens, st)
        | _, _ => (.error .ExchangeNotExists, st)
      else (.error .ZeroTokens, st)
    else (.error .ZeroTokens, st)
  else (.error .Deadline, st)

/-! ## Operation sequences over the combined state -/

/-- One user-visible operation: the four public ledger dispatchables and
the nine dex dispatchables. -/
inductive Op where
  | issue (origin total : Nat) (info : AssetInfo)
  | transfer (origin id target amount : Nat)
  | allow (owner id spender amount : Nat)
  | transfer_from (spender id owner target amount : Nat)
  | create_exchange (origin token_id : Nat)
  | add_liquidity (origin exchange_id currency_amount min_liquidity max_tokens deadline : Nat)
  | remove_liquidity (origin exchange_id zlk_to_burn min_currency min_tokens deadline : Nat)
  | currency_to_tokens_input (origin exchange_id currency_sold min_tokens deadline recipient : Nat)
  | currency_to_tokens_output (origin exchange_id tokens_bought max_currency deadline recipient : Nat)
  | tokens_to_currency_input (origin exchange_id tokens_sold min_currency deadline recipient : Nat)
  | tokens_to_currency_output (origin exchange_id currency_bought max_tokens deadline recipient : Nat)
  | token_to_token_input (origin exchange_id other_exchange_id tokens_sold min_other_tokens deadline recipient : Nat)
  | token_to_token_output (origin exchange_id other_exchange_id other_tokens_bought max_tokens deadline recipient : Nat)

/-- Dispatch one operation. -/
def apply_op (op : Op) (st : St) : Except Err Unit × St :=
  match op with
  | .issue o t i => issue o t i st
  | .transfer o id tg a => transfer o id tg a st
  | .allow o id sp a => allow o id sp a st
  | .transfer_from sp id ow tg a => transfer_from sp id ow tg a st
  | .create_exchange o tid => create_exchange o tid st
  | .add_liquidity o e ca ml mt dl => add_liquidity o e ca ml mt dl st
  | .remove_liquidity o e z mc mt dl => remove_liquidity o e z mc mt dl st
  | .currency_to_tokens_input o e cs mt dl r => currency_to_tokens_input o e cs mt dl r st
  | .currency_to_tokens_output o e tb mc dl r => currency_to_tokens_output o e tb mc dl r st
  | .tokens_to_currency_input o e ts mc dl r => tokens_to_currency_input o e ts mc dl r st
  | .tokens_to_currency_output o e cb mt dl r => tokens_to_currency_output o e cb mt dl r st
  | .token_to_token_input o e oe ts mo dl r => token_to_token_input o e oe ts mo dl r st
  | .token_to_token_output o e oe ob mt dl r => token_to_token_output o e oe ob mt dl r st

/-- Argument wellformedness: amounts that the Rust signature types as
`u128` must fit in `u128`.  Only `issue` stores an argument without any
guard; every other amount is either checked against an existing balance
or checked explicitly. -/
def Op.wf : Op → Prop
  | .issue _ total _ => total < W128
  | _ => True

/-- Run a sequence of dispatched operations, keeping each operation's
resulting state whether it succeeded or failed (failed dispatches of
this era keep their partial writes). -/
def run_ops (ops : List Op) (st : St) : St :=
  ops.foldl (fun s op => (apply_op op s).2) st

/-- Genesis state: empty ledger and dex storage, arbitrary host currency
balances and block number. -/
def init_st (free0 : List (Nat × Nat)) (bn : Nat) : St :=
  { balances := []
    allowances := []
    total_supply := []
    asset_infos := []
    next_asset_id := 0
    free := free0
    exchanges := []
    token_to_exchange := []
    next_exchange_id := 0
    block_number := bn
    events := [] }

/-- The ledger invariant maintained by every operation: balance keys are
unduplicated, per-asset balance sums equal the recorded total supplies,
supplies fit in `u128`, and every asset id mentioned by the ledger or by
a pool record is below the allocation counter (ids are never reused). -/
def LedgerInv (st : St) : Prop :=
  nodup_keys st.balances ∧
  (∀ id, sum_for st.balances id = lookup0 st.total_supply id) ∧
  (∀ id, lookup0 st.total_supply id < W128) ∧
  (∀ p ∈ st.balances, p.1.1 < st.next_asset_id) ∧
  (∀ p ∈ st.total_supply, p.1 < st.next_asset_id) ∧
  (∀ p ∈ st.asset_infos, p.1 < st.next_asset_id) ∧
  (∀ p ∈ st.exchanges, p.2.token_id < st.next_asset_id ∧ p.2.liquidity_id < st.next_asset_id)

/-! ## Concrete states used by individual claims -/

/-- The pool record shared by the concrete claim states below: paired
token 0, liquidity asset 1, pool account derived from exchange id 0. -/
def pool0 : Exchange :=
  { token_id := 0, liquidity_id := 1, account := sub_account 0 }

/-- C1 state: owner 1 holds 3 units of asset 0 and has approved 10 units
to spender 7. -/
def c1_state : St :=
  { init_st [] 0 with
    balances := [((0, 1), 3)]
    allowances := [((0, 1, 7), 10)]
    total_supply := [(0, 3)]
    next_asset_id := 1 }

/-- C3 state: one pool (token 0, liquidity 1, the derived pool account)
with currency reserve `10^10` and token reserve `10^10`; the buyer
(account 1) holds a little more than `u64::MAX` currency. -/
def c3_state : St :=
  { init_st [(1, 2 ^ 64 + 4), (sub_account 0, 10000000000)] 0 with
    balances := [((0, sub_account 0), 10000000000)]
    total_supply := [(0, 10000000000)]
    asset_infos := [(0, zlk_info)]
    next_asset_id := 2
    exchanges := [(0, pool0)]
    token_to_exchange := [(0, 0)]
    next_exchange_id := 1 }

/-- C3 witness state: a small balanced pool with reserves 1000/1000. -/
def c3w_state : St :=
  { init_st [(1, 200), (sub_account 0, 1000)] 0 with
    balances := [((0, sub_account 0), 1000)]
    total_supply := [(0, 1000)]
    asset_infos := [(0, zlk_info)]
    next_asset_id := 2
    exchanges := [(0, pool0)]
    token_to_exchange := [(0, 0)]
    next_exchange_id := 1 }

/-- C4 state: a pool with currency reserve 3, token reserve 5 and
liquidity supply 3; provider 1 holds tokens and has approved the pool. -/
def c4_state : St :=
  { init_st [(1, 100), (sub_account 0, 3)] 0 with
    balances := [((0, 1), 50), ((0, sub_account 0), 5)]
    allowances := [((0, 1, sub_account 0), 50)]
    total_supply := [(0, 55), (1, 3)]
    asset_infos := [(0, zlk_info), (1, zlk_info)]
    next_asset_id := 2
    exchanges := [(0, pool0)]
    token_to_exchange := [(0, 0)]
    next_exchange_id := 1 }

/-- C6 state: a pool whose paired token is held both by the buyer
(account 1) and by the recipient (account 2); both have approved the
pool account. -/
def c6_state : St :=
  { init_st [(sub_account 0, 10000), (1, 50)] 0 with
    balances := [((0, sub_account 0), 1000), ((0, 2), 1000), ((0, 1), 500)]
    allowances := [((0, 2, sub_account 0), 1000), ((0, 1, sub_account 0), 500)]
    total_supply := [(0, 2500)]
    asset_infos := [(0, zlk_info)]
    next_asset_id := 2
    exchanges := [(0, pool0)]
    token_to_exchange := [(0, 0)]
    next_exchange_id := 1 }

/-- C7 state: account 2 already holds `u128::MAX` units of asset 0 and
account 1 holds one unit. -/
def c7_state : St :=
  { init_st [] 0 with
    balances := [((0, 1), 1), ((0, 2), W128 - 1)]
    total_supply := [(0, W128 - 1)]
    next_asset_id := 1 }

/-- C9 witness state: account 1 holds 100 units of asset 0. -/
def c9_state : St :=
  { init_st [] 0 with
    balances := [((0, 1), 100)]
    total_supply := [(0, 100)]
    next_asset_id := 1 }

/-! ## Association-list lemmas -/

theorem alookup_cons {κ α : Type} [DecidableEq κ] (p : κ × α) (rest : List (κ × α)) (k : κ) :
    alookup (p :: rest) k = if p.1 = k then some p.2 else alookup rest k := rfl

theorem aerase_cons {κ α : Type} [DecidableEq κ] (p : κ × α) (rest : List (κ × α)) (k : κ) :
    aerase (p :: rest) k = if p.1 = k then aerase rest k else p :: aerase rest k := rfl

theorem sum_for_cons (p : (Nat × Nat) × Nat) (rest : List ((Nat × Nat) × Nat)) (id : Nat) :
    sum_for (p :: rest) id = (if p.1.1 = id then p.2 else 0) + sum_for rest id := rfl

theorem lookup0_cons {κ : Type} [DecidableEq κ] (p : κ × Nat) (rest : List (κ × Nat)) (k : κ) :
    lookup0 (p :: rest) k = if p.1 = k then p.2 else lookup0 rest k := by
  unfold lookup0
  rw [alookup_cons]
  by_cases hp : p.1 = k <;> simp [hp]

theorem lookup0_zero_of_fresh {κ : Type} [DecidableEq κ] (m : List (κ × Nat)) (k : κ)
    (h : ∀ p ∈ m, p.1 ≠ k) : lookup0 m k = 0 := by
  induction m with
  | nil => rfl
  | cons p rest ih =>
    rw [lookup0_cons, if_neg (h p (List.mem_cons_self p rest))]
    exact ih (fun q hq => h q (List.mem_cons_of_mem p hq))

theorem alookup_aerase_ne {κ α : Type} [DecidableEq κ] (m : List (κ × α)) (k k2 : κ)
    (h : k2 ≠ k) : alookup (aerase m k) k2 = alookup m k2 := by
  induction m with
  | nil => rfl
  | cons p rest ih =>
    rw [aerase_cons]
    by_cases hp : p.1 = k
    · have hp2 : p.1 ≠ k2 := fun hh => h (hh ▸ hp)
      rw [if_pos hp, ih, alookup_cons, if_neg hp2]
    · rw [if_neg hp, alookup_cons, alookup_cons, ih]

theorem alookup_aerase_self {κ α : Type} [DecidableEq κ] (m : List (κ × α)) (k : κ) :
    alookup (aerase m k) k = none := by
  induction m with
  | nil => rfl
  | cons p rest ih =>
    rw [aerase_cons]
    by_cases hp : p.1 = k
    · rw [if_pos hp]; exact ih
    · rw [if_neg hp, alookup_cons, if_neg hp]; exact ih

theorem lookup0_aset_self {κ : Type} [DecidableEq κ] (m : List (κ × Nat)) (k : κ) (v : Nat) :
    lookup0 (aset m k v) k = v := by
  simp [lookup0, aset, alookup]

theorem lookup0_aset_ne {κ : Type} [DecidableEq κ] (m : List (κ × Nat)) (k k2 : κ) (v : Nat)
    (h : k2 ≠ k) : lookup0 (aset m k v) k2 = lookup0 m k2 := by
  unfold lookup0
  show (alookup ((k, v) :: aerase m k) k2).getD 0 = _
  rw [alookup_cons, if_neg (by simpa using fun hh => h hh.symm),
    alookup_aerase_ne m k k2 h]

theorem alookup_mem {κ α : Type} [DecidableEq κ] (m : List (κ × α)) (k : κ) (v : α)
    (h : alookup m k = some v) : (k, v) ∈ m := by
  induction m with
  | nil => simp [alookup] at h
  | cons p rest ih =>
    rw [alookup_cons] at h
    by_cases hp : p.1 = k
    · rw [if_pos hp] at h
      injection h with h
      have : p = (k, v) := by
        cases p
        simp only at hp h
        rw [hp, h]
      exact this ▸ List.mem_cons_self p rest
    · rw [if_neg hp] at h
      exact List.mem_cons_of_mem _ (ih h)

theorem lookup0_mem {κ : Type} [DecidableEq κ] (m : List (κ × Nat)) (k : κ)
    (h : lookup0 m k ≠ 0) : (k, lookup0 m k) ∈ m := by
  unfold lookup0 at *
  cases hl : alookup m k with
  | none => rw [hl] at h; simp at h
  | some v => simpa using alookup_mem m k v hl

theorem mem_aerase {κ α : Type} [DecidableEq κ] (m : List (κ × α)) (k : κ)
    (p : κ × α) (h : p ∈ aerase m k) : p ∈ m := by
  induction m with
  | nil => simp [aerase] at h
  | cons q rest ih =>
    rw [aerase_cons] at h
    by_cases hq : q.1 = k
    · rw [if_pos hq] at h
      exact List.mem_cons_of_mem _ (ih h)
    · rw [if_neg hq] at h
      rcases List.mem_cons.1 h with h | h
      · exact h ▸ List.mem_cons_self q rest
      · exact List.mem_cons_of_mem _ (ih h)

theorem mem_aset {κ α : Type} [DecidableEq κ] (m : List (κ × α)) (k : κ) (v : α)
    (p : κ × α) (h : p ∈ aset m k v) : p = (k, v) ∨ p ∈ m := by
  rcases List.mem_cons.1 h with h | h
  · exact Or.inl h
  · exact Or.inr (mem_aerase m k p h)

theorem not_mem_keys_aerase {κ α : Type} [DecidableEq κ] (m : List (κ × α)) (k : κ) :
    k ∉ (aerase m k).map Prod.fst := by
  intro hk
  rcases List.mem_map.1 hk with ⟨p, hp, hpk⟩
  clear hk
  induction m with
  | nil => simp [aerase] at hp
  | cons q rest ih =>
    rw [aerase_cons] at hp
    by_cases hq : q.1 = k
    · rw [if_pos hq] at hp
      exact ih hp
    · rw [if_neg hq] at hp
      rcases List.mem_cons.1 hp with hh | hh
      · exact hq (hh ▸ hpk)
      · exact ih hh

theorem nodup_keys_aerase {κ α : Type} [DecidableEq κ] (m : List (κ × α)) (k : κ)
    (h : nodup_keys m) : nodup_keys (aerase m k) := by
  unfold nodup_keys at *
  induction m with
  | nil => simp [aerase]
  | cons q rest ih =>
    rw [List.map_cons, List.nodup_cons] at h
    rw [aerase_cons]
    by_cases hq : q.1 = k
    · rw [if_pos hq]; exact ih h.2
    · rw [if_neg hq, List.map_cons, List.nodup_cons]
      refine ⟨fun hmem => h.1 ?_, ih h.2⟩
      rcases List.mem_map.1 hmem with ⟨p, hp, hpk⟩
      exact List.mem_map.2 ⟨p, mem_aerase rest k p hp, hpk⟩

theorem nodup_keys_aset {κ α : Type} [DecidableEq κ] (m : List (κ × α)) (k : κ) (v : α)
    (h : nodup_keys m) : nodup_keys (aset m k v) := by
  unfold nodup_keys aset
  rw [List.map_cons, List.nodup_cons]
  exact ⟨not_mem_keys_aerase m k, nodup_keys_aerase m k h⟩

/-! ## Balance-sum lemmas -/

theorem sum_for_aerase_ne (m : List ((Nat × Nat) × Nat)) (k : Nat × Nat) (id : Nat)
    (h : k.1 ≠ id) : sum_for (aerase m k) id = sum_for m id := by
  induction m with
  | nil => rfl
  | cons p rest ih =>
    rw [aerase_cons]
    by_cases hp : p.1 = k
    · rw [if_pos hp, sum_for_cons, if_neg (hp ▸ h : p.1.1 ≠ id), ih]
      omega
    · rw [if_neg hp, sum_for_cons, sum_for_cons, ih]

theorem sum_for_aerase_self (m : List ((Nat × Nat) × Nat)) (k : Nat × Nat) (id : Nat)
    (hk : k.1 = id) (h : nodup_keys m) :
    sum_for (aerase m k) id + lookup0 m k = sum_for m id := by
  induction m with
  | nil => simp [aerase, sum_for, lookup0, alookup]
  | cons p rest ih =>
    unfold nodup_keys at h
    rw [List.map_cons, List.nodup_cons] at h
    rw [aerase_cons]
    by_cases hp : p.1 = k
    · have herase : aerase rest k = rest := by
        have hnot : ∀ q ∈ rest, q.1 ≠ k := by
          intro q hq hqk
          exact h.1 (List.mem_map.2 ⟨q, hq, hqk.trans hp.symm⟩)
        clear ih h
        induction rest with
        | nil => rfl
        | cons q rr ihh =>
          rw [aerase_cons, if_neg (hnot q (List.mem_cons_self q rr))]
          rw [ihh (fun q2 hq2 => hnot q2 (List.mem_cons_of_mem q hq2))]
      have hrest0 : lookup0 rest k = 0 := by
        apply lookup0_zero_of_fresh
        intro q hq hqk
        exact h.1 (List.mem_map.2 ⟨q, hq, hqk.trans hp.symm⟩)
      rw [if_pos hp, herase, lookup0_cons, if_pos hp, sum_for_cons,
        if_pos ((hp ▸ hk) : p.1.1 = id)]
      omega
    · rw [if_neg hp, sum_for_cons, sum_for_cons, lookup0_cons, if_neg hp]
      have := ih h.2
      omega

theorem sum_for_aset_same (m : List ((Nat × Nat) × Nat)) (k : Nat × Nat) (id : Nat) (v : Nat)
    (hk : k.1 = id) (h : nodup_keys m) :
    sum_for (aset m k v) id + lookup0 m k = sum_for m id + v := by
  have h1 : sum_for (aset m k v) id = v + sum_for (aerase m k) id := by
    show (if k.1 = id then v else 0) + sum_for (aerase m k) id = _
    rw [if_pos hk]
  rw [h1]
  have := sum_for_aerase_self m k id hk h
  omega

theorem sum_for_aset_ne (m : List ((Nat × Nat) × Nat)) (k : Nat × Nat) (id : Nat) (v : Nat)
    (hk : k.1 ≠ id) : sum_for (aset m k v) id = sum_for m id := by
  show (if k.1 = id then v else 0) + sum_for (aerase m k) id = _
  rw [if_neg hk, sum_for_aerase_ne m k id hk]
  omega

theorem lookup0_le_sum_for (m : List ((Nat × Nat) × Nat)) (k : Nat × Nat) (id : Nat)
    (hk : k.1 = id) : lookup0 m k ≤ sum_for m id := by
  induction m with
  | nil => simp [lookup0, alookup, sum_for]
  | cons p rest ih =>
    rw [lookup0_cons, sum_for_cons]
    by_cases hp : p.1 = k
    · rw [if_pos hp, if_pos ((hp ▸ hk) : p.1.1 = id)]
      omega
    · rw [if_neg hp]
      omega

theorem lookup0_add_le_sum_for (m : List ((Nat × Nat) × Nat)) (k1 k2 : Nat × Nat) (id : Nat)
    (h12 : k1 ≠ k2) (h1 : k1.1 = id) (h2 : k2.1 = id) :
    lookup0 m k1 + lookup0 m k2 ≤ sum_for m id := by
  induction m with
  | nil => simp [lookup0, alookup, sum_for]
  | cons p rest ih =>
    rw [lookup0_cons, lookup0_cons, sum_for_cons]
    by_cases hp1 : p.1 = k1
    · have hp2 : p.1 ≠ k2 := fun hh => h12 (hp1 ▸ hh)
      rw [if_pos hp1, if_neg hp2, if_pos ((hp1 ▸ h1) : p.1.1 = id)]
      have := lookup0_le_sum_for rest k2 id h2
      omega
    · by_cases hp2 : p.1 = k2
      · rw [if_neg hp1, if_pos hp2, if_pos ((hp2 ▸ h2) : p.1.1 = id)]
        have := lookup0_le_sum_for rest k1 id h1
        omega
      · rw [if_neg hp1, if_neg hp2]
        omega

theorem sum_for_zero_of_fresh (m : List ((Nat × Nat) × Nat)) (n : Nat)
    (h : ∀ p ∈ m, p.1.1 ≠ n) : sum_for m n = 0 := by
  induction m with
  | nil => rfl
  | cons p rest ih =>
    rw [sum_for_cons, if_neg (h p (List.mem_cons_self p rest)),
      ih (fun q hq => h q (List.mem_cons_of_mem p hq))]

/-! ## Pricing arithmetic lemmas -/

theorem get_input_price_mul_le (x a b : Nat) :
    get_input_price x a b * (a + x) ≤ x * b := by
  show x * 997 * b / (a * 1000 + x * 997) * (a + x) ≤ x * b
  set d := a * 1000 + x * 997 with hd
  set y := x * 997 * b / d with hy
  have h1 : y * d ≤ x * 997 * b := Nat.div_mul_le_self (x * 997 * b) d
  have h2 : 997 * (y * (a + x)) ≤ 997 * (x * b) := by
    have e1 : 997 * (y * (a + x)) = y * (a * 997 + x * 997) := by ring
    have e2 : y * (a * 997 + x * 997) ≤ y * d := by
      apply Nat.mul_le_mul_left
      omega
    have e3 : x * 997 * b = 997 * (x * b) := by ring
    omega
  exact Nat.le_of_mul_le_mul_left h2 (by norm_num)

theorem get_input_price_le_out (x a b : Nat) : get_input_price x a b ≤ b := by
  show x * 997 * b / (a * 1000 + x * 997) ≤ b
  rcases Nat.eq_zero_or_pos x with hx | hx
  · simp [hx]
  · calc x * 997 * b / (a * 1000 + x * 997) ≤ x * 997 * b / (x * 997) := by
          apply Nat.div_le_div_left
          · omega
          · positivity
      _ = b := by
          rw [Nat.mul_div_cancel_left b (by positivity : 0 < x * 997)]

/-- Constant-product step for the exact-in price: paying `x` into
reserves `(a, b)` and receiving `get_input_price x a b` does not
decrease the product. -/
theorem product_after_input (x a b : Nat) :
    a * b ≤ (a + x) * (b - get_input_price x a b) := by
  set y := get_input_price x a b with hy
  have h1 : y * (a + x) ≤ x * b := get_input_price_mul_le x a b
  have h2 : y ≤ b := get_input_price_le_out x a b
  have h3 : (a + x) * b = (a + x) * (b - y) + (a + x) * y := by
    rw [← Nat.mul_add, Nat.sub_add_cancel h2]
  have h4 : (a + x) * b = a * b + x * b := by ring
  have h5 : (a + x) * y = y * (a + x) := by ring
  omega

theorem lt_div_add_one_mul (n d : Nat) (hd : 0 < d) : n < (n / d + 1) * d := by
  have h1 := Nat.div_add_mod n d
  have h2 : n % d < d := Nat.mod_lt n hd
  have h3 : (n / d + 1) * d = d * (n / d) + d := by ring
  omega

/-- Constant-product step for the exact-out price: receiving `y < b` out
of reserves `(a, b)` against a payment of `get_output_price y a b` does
not decrease the product. -/
theorem product_after_output (y a b : Nat) (hyb : y < b) :
    a * b ≤ (a + get_output_price y a b) * (b - y) := by
  set p := get_output_price y a b with hp
  have hd : 0 < (b - y) * 997 := by
    have : 0 < b - y := by omega
    positivity
  have h1 : a * y * 1000 < p * ((b - y) * 997) := by
    have := lt_div_add_one_mul (a * y * 1000) ((b - y) * 997) hd
    exact this
  have h2 : a * y < p * (b - y) := by
    by_contra hc
    push_neg at hc
    have : p * ((b - y) * 997) ≤ a * y * 997 := by
      have e1 : p * ((b - y) * 997) = p * (b - y) * 997 := by ring
      have e2 : p * (b - y) * 997 ≤ a * y * 997 := Nat.mul_le_mul_right 997 hc
      omega
    have e3 : a * y * 997 ≤ a * y * 1000 := Nat.mul_le_mul_left (a * y) (by norm_num)
    omega
  have h3 : (a + p) * (b - y) = a * (b - y) + p * (b - y) := by ring
  have h4 : a * b = a * (b - y) + a * y := by
    rw [← Nat.mul_add, Nat.sub_add_cancel (Nat.le_of_lt hyb)]
  omega

/-- Round trip: paying the quoted exact-out cost for `x` buys at least
`x` back through the exact-in price. -/
theorem input_of_output_ge (x a b : Nat) (hxb : x < b) :
    x ≤ get_input_price (get_output_price x a b) a b := by
  set p := get_output_price x a b with hp
  have hp1 : 1 ≤ p := by
    show 1 ≤ a * x * 1000 / ((b - x) * 997) + 1
    exact Nat.le_add_left 1 _
  show x ≤ p * 997 * b / (a * 1000 + p * 997)
  rw [Nat.le_div_iff_mul_le (by positivity : 0 < a * 1000 + p * 997)]
  have hd : 0 < (b - x) * 997 := by
    have : 0 < b - x := by omega
    positivity
  have h1 : a * x * 1000 < p * ((b - x) * 997) :=
    lt_div_add_one_mul (a * x * 1000) ((b - x) * 997) hd
  have e1 : x * (a * 1000 + p * 997) = a * x * 1000 + p * 997 * x := by ring
  have e2 : p * 997 * b = p * 997 * (b - x) + p * 997 * x := by
    rw [← Nat.mul_add, Nat.sub_add_cancel (Nat.le_of_lt hxb)]
  have e3 : p * ((b - x) * 997) = p * 997 * (b - x) := by ring
  omega

/-- Round trip: the quoted exact-out cost of what `x` buys through the
exact-in price is at most `x + 1`. -/
theorem output_of_input_le (x a b : Nat) (ha : 0 < a) (hxb : x < b) :
    get_output_price (get_input_price x a b) a b ≤ x + 1 := by
  set y := get_input_price x a b with hy
  have hyb : y < b := by
    rcases Nat.eq_zero_or_pos x with hx | hx
    · have : y = 0 := by
        rw [hy]
        show x * 997 * b / (a * 1000 + x * 997) = 0
        rw [hx]
        simp
      omega
    · show x * 997 * b / (a * 1000 + x * 997) < b
      rw [Nat.div_lt_iff_lt_mul (by positivity : 0 < a * 1000 + x * 997)]
      have hb : 0 < b := by omega
      have : x * 997 * b < b * (x * 997) + b * (a * 1000) := by
        have : 0 < b * (a * 1000) := by positivity
        nlinarith
      nlinarith
  show a * y * 1000 / ((b - y) * 997) + 1 ≤ x + 1
  have hd : 0 < (b - y) * 997 := by
    have : 0 < b - y := by omega
    positivity
  have h1 : y * (a * 1000 + x * 997) ≤ x * 997 * b := Nat.div_mul_le_self (x * 997 * b) _
  have h2 : a * y * 1000 ≤ x * ((b - y) * 997) := by
    have e2 : x * 997 * b = x * 997 * (b - y) + x * 997 * y := by
      rw [← Nat.mul_add, Nat.sub_add_cancel (Nat.le_of_lt hyb)]
    nlinarith
  have h3 : a * y * 1000 / ((b - y) * 997) ≤ x := by
    calc a * y * 1000 / ((b - y) * 997) ≤ x * ((b - y) * 997) / ((b - y) * 997) :=
          Nat.div_le_div_right h2
      _ = x := Nat.mul_div_cancel x hd
  omega

/-! ## Claim theorems: conversions, pricing round trips, ledger edge cases -/

/-- Claim C10: both boundary conversions are saturating casts through
`u64`: for every value `v`, `convert v = unconvert v = min v u64Max`,
so out-of-range currency amounts are silently clamped rather than
rejected. -/
theorem c10_convert_unconvert_saturate (v : Nat) :
    convert v = min v u64Max ∧ unconvert v = min v u64Max := by
  unfold convert unconvert satU64
  constructor <;> split_ifs <;> omega

/-- Claim C8, counterexample: at `x = 10`, `a = 1000`, `b = 2000`
(inside the claimed domain `a > 0`, `b > x`), the claimed inequality
`input_price(output_price(x, a, b), a, b) ≤ x` fails: the round trip
yields 11 > 10. -/
theorem c8_roundtrip_counterexample :
    0 < (1000 : Nat) ∧ (10 : Nat) < 2000 ∧
    get_input_price (get_output_price 10 1000 2000) 1000 2000 = 11 ∧
    ¬ get_input_price (get_output_price 10 1000 2000) 1000 2000 ≤ 10 := by
  decide

/-- Claim C8, amended: the round-trip inequalities hold in the opposite
direction, with unit slack on the second: for `x < b`,
`input_price(output_price(x, a, b), a, b) ≥ x`, and for `a > 0`, `x < b`,
`output_price(input_price(x, a, b), a, b) ≤ x + 1`. -/
theorem c8_roundtrip_amended :
    (∀ a b x : Nat, x < b → x ≤ get_input_price (get_output_price x a b) a b) ∧
    (∀ a b x : Nat, 0 < a → x < b →
      get_output_price (get_input_price x a b) a b ≤ x + 1) :=
  ⟨fun a b x h => input_of_output_ge x a b h,
   fun a b x ha h => output_of_input_le x a b ha h⟩

/-- Witness for the amended C8 round trips at `a = 1000`, `b = 2000`,
`x = 10`. -/
theorem c8_roundtrip_witness :
    10 ≤ get_input_price (get_output_price 10 1000 2000) 1000 2000 ∧
    get_output_price (get_input_price 10 1000 2000) 1000 2000 ≤ 11 :=
  ⟨c8_roundtrip_amended.1 1000 2000 10 (by decide),
   c8_roundtrip_amended.2 1000 2000 10 (by decide) (by decide)⟩

/-- Claim C7: the ledger's arithmetic is NOT checked.  Crediting the
target in `transfer` uses an unchecked `+=`: from a state where account 2
holds `u128::MAX` of asset 0, transferring one more unit SUCCEEDS and
wraps the target balance to 0 — no `Overflow` error exists in the assets
pallet's error enum at all. -/
theorem c7_transfer_wraps_silently :
    lookup0 c7_state.balances (0, 2) = W128 - 1 ∧
    isOk (transfer 1 0 2 1 c7_state).1 = true ∧
    lookup0 (transfer 1 0 2 1 c7_state).2.balances (0, 2) = 0 := by
  decide

/-- Claim C1: `transfer_from` is not atomic.  With allowance
`allowances[(0, 1, 7)] = 10 ≥ 5` but owner balance `3 < 5`, the inner
transfer fails with `BalanceLow`, yet the allowance write that precedes
it persists: the post-state allowance is 5, not the pre-state 10
(dispatch in this code base is not transactional — the dex source carries
a `// TODO: transaction` comment). -/
theorem c1_transfer_from_not_atomic :
    lookup0 c1_state.allowances (0, 1, 7) = 10 ∧
    lookup0 c1_state.balances (0, 1) = 3 ∧
    errOf (transfer_from 7 0 1 8 5 c1_state).1 = some Err.BalanceLow ∧
    lookup0 (transfer_from 7 0 1 8 5 c1_state).2.allowances (0, 1, 7) = 5 := by
  decide

/-- Claim C6: in a successful `tokens_to_currency_output`, the computed
`tokens_sold` are pulled from the RECIPIENT (account 2), drawing down the
recipient's allowance to the pool, while the signing buyer's (account 1)
token balance and allowance are untouched — and the bought currency is
paid to the buyer, not the recipient. -/
theorem c6_output_swap_debits_recipient :
    isOk (tokens_to_currency_output 1 0 100 500 1 2 c6_state).1 = true ∧
    lookup0 (tokens_to_currency_output 1 0 100 500 1 2 c6_state).2.balances (0, 2) = 989 ∧
    lookup0 (tokens_to_currency_output 1 0 100 500 1 2 c6_state).2.allowances
      (0, 2, sub_account 0) = 989 ∧
    lookup0 (tokens_to_currency_output 1 0 100 500 1 2 c6_state).2.balances (0, 1) = 500 ∧
    lookup0 (tokens_to_currency_output 1 0 100 500 1 2 c6_state).2.allowances
      (0, 1, sub_account 0) = 500 ∧
    lookup0 c6_state.free 1 = 50 ∧
    lookup0 (tokens_to_currency_output 1 0 100 500 1 2 c6_state).2.free 1 = 150 := by
  decide

/-- Claim C9: a self-transfer of a positive amount within the caller's
balance succeeds, leaves every balance entry and the total-supply map
unchanged, and still emits `Transferred(id, caller, caller, amount)`. -/
theorem c9_self_transfer (st : St) (caller id amount : Nat)
    (h0 : 0 < amount) (hle : amount ≤ lookup0 st.balances (id, caller))
    (hW : lookup0 st.balances (id, caller) < W128) :
    isOk (transfer caller id caller amount st).1 = true ∧
    (∀ k, lookup0 (transfer caller id caller amount st).2.balances k =
      lookup0 st.balances k) ∧
    (transfer caller id caller amount st).2.total_supply = st.total_supply ∧
    (transfer caller id caller amount st).2.events =
      Event.Transferred id caller caller amount :: st.events := by
  have hz : ¬ amount = 0 := by omega
  have hlt : ¬ lookup0 st.balances (id, caller) < amount := by omega
  unfold transfer
  rw [if_neg hz, if_neg hlt]
  refine ⟨rfl, ?_, rfl, rfl⟩
  intro k
  dsimp only
  by_cases hk : k = (id, caller)
  · rw [hk, lookup0_aset_self, lookup0_aset_self,
      Nat.sub_add_cancel hle, Nat.mod_eq_of_lt hW]
  · rw [lookup0_aset_ne _ _ _ _ hk, lookup0_aset_ne _ _ _ _ hk]

/-- Witness for C9: self-transfer of 40 out of 100 units at `c9_state`. -/
theorem c9_self_transfer_witness :
    isOk (transfer 1 0 1 40 c9_state).1 = true ∧
    lookup0 (transfer 1 0 1 40 c9_state).2.balances (0, 1) = 100 := by
  have h := c9_self_transfer c9_state 1 0 40 (by decide) (by decide) (by decide)
  refine ⟨h.1, ?_⟩
  rw [h.2.1 (0, 1)]
  decide

/-- Claim C4, counterexample: at `c4_state` (reserves CR = 3, TR = 5,
liquidity supply L = 3) a successful `add_liquidity` with
`currency_amount = 2` deposits `⌊2·5/3⌋ = 3` tokens (the `LiquidityAdded`
event records 3), not the claimed `⌈2·5/3⌉ = 4`. -/
theorem c4_floor_counterexample :
    lookup0 c4_state.total_supply 1 = 3 ∧
    get_currency_reserve pool0 c4_state = 3 ∧
    get_token_reserve pool0 c4_state = 5 ∧
    isOk (add_liquidity 1 0 2 1 100 5 c4_state).1 = true ∧
    (add_liquidity 1 0 2 1 100 5 c4_state).2.events.head? =
      some (Event.LiquidityAdded 0 1 2 3) ∧
    (2 * 5 + 3 - 1) / 3 = 4 ∧ (3 : Nat) ≠ 4 := by
  decide

/-- Claim C5, counterexample: `currency_to_tokens_input` checks the
deadline STRICTLY (`ensure!(deadline > now)` at dex lib.rs line 316):
with `deadline = now = 5` — which satisfies the claimed inclusive
predicate `deadline ≥ now` — the call is rejected with `Deadline`. -/
theorem c5_strict_deadline_counterexample :
    (5 : Nat) ≥ 5 ∧
    errOf (currency_to_tokens_input 1 0 100 1 5 2 (init_st [] 5)).1 =
      some Err.Deadline := by
  decide

/-- Claim C3, counterexample: at `c3_state` (CR = TR = `10^10 > 0`),
`currency_to_tokens_output` buying `10^10 − 1` tokens computes a
currency cost above `u64::MAX`, which `unconvert` silently clamps to
`u64::MAX`; the swap succeeds and the reserve product drops from
`10^20` to about `1.84·10^19`. -/
theorem c3_product_counterexample :
    0 < get_currency_reserve pool0 c3_state ∧
    0 < get_token_reserve pool0 c3_state ∧
    isOk (currency_to_tokens_output 1 0 9999999999 (10 ^ 30) 1 2 c3_state).1 = true ∧
    get_currency_reserve pool0 ((currency_to_tokens_output 1 0 9999999999 (10 ^ 30) 1 2 c3_state).2) *
        get_token_reserve pool0 ((currency_to_tokens_output 1 0 9999999999 (10 ^ 30) 1 2 c3_state).2) <
      get_currency_reserve pool0 c3_state * get_token_reserve pool0 c3_state := by
  decide

/-! ## Deadline-error localization (claim C5) -/

theorem transfer_no_deadline (o id t a : Nat) (st : St) :
    (transfer o id t a st).1 ≠ Except.error Err.Deadline := by
  unfold transfer
  dsimp only
  split_ifs <;> simp

theorem transfer_from_no_deadline (sp id ow t a : Nat) (st : St) :
    (transfer_from sp id ow t a st).1 ≠ Except.error Err.Deadline := by
  unfold transfer_from
  dsimp only
  split_ifs
  · simp
  · exact transfer_no_deadline _ _ _ _ _

theorem inner_transfer_no_deadline (id f t a : Nat) (st : St) :
    (inner_transfer id f t a st).1 ≠ Except.error Err.Deadline :=
  transfer_no_deadline _ _ _ _ _

theorem inner_transfer_from_no_deadline (id f sp t a : Nat) (st : St) :
    (inner_transfer_from id f sp t a st).1 ≠ Except.error Err.Deadline :=
  transfer_from_no_deadline _ _ _ _ _ _

theorem inner_mint_no_deadline (id t a : Nat) (st : St) :
    (inner_mint id t a st).1 ≠ Except.error Err.Deadline := by
  unfold inner_mint
  dsimp only
  split_ifs <;> simp

theorem inner_burn_no_deadline (id f a : Nat) (st : St) :
    (inner_burn id f a st).1 ≠ Except.error Err.Deadline := by
  unfold inner_burn
  dsimp only
  split_ifs <;> simp

theorem currency_transfer_no_deadline (f t a : Nat) (k : Bool) (st : St) :
    (currency_transfer f t a k st).1 ≠ Except.error Err.Deadline := by
  unfold currency_transfer
  dsimp only
  split_ifs <;> simp

theorem andThen_no_deadline (x : Except Err Unit × St) (f : St → Except Err Unit × St)
    (hx : x.1 ≠ Except.error Err.Deadline)
    (hf : ∀ st, (f st).1 ≠ Except.error Err.Deadline) :
    (andThen x f).1 ≠ Except.error Err.Deadline := by
  rcases x with ⟨r, st⟩
  cases r with
  | ok u => exact hf st
  | error e => exact hx

theorem add_liquidity_deadline_iff (o e ca ml mt dl : Nat) (st : St) :
    (add_liquidity o e ca ml mt dl st).1 = Except.error Err.Deadline ↔
      dl ≤ st.block_number := by
  unfold add_liquidity
  by_cases hdl : dl > st.block_number
  · rw [if_pos hdl]
    simp only [show ¬ dl ≤ st.block_number from by omega, iff_false]
    repeat' first
      | (refine andThen_no_deadline _ _ (currency_transfer_no_deadline _ _ _ _ _) fun _ => ?_)
      | (refine andThen_no_deadline _ _ (inner_mint_no_deadline _ _ _ _) fun _ => ?_)
      | (refine andThen_no_deadline _ _ (inner_transfer_from_no_deadline _ _ _ _ _ _) fun _ => ?_)
      | split
      | split_ifs
      | simp
  · rw [if_neg hdl]
    simp
    omega

theorem remove_liquidity_deadline_iff (o e z mc mt dl : Nat) (st : St) :
    (remove_liquidity o e z mc mt dl st).1 = Except.error Err.Deadline ↔
      dl ≤ st.block_number := by
  unfold remove_liquidity
  by_cases hdl : dl > st.block_number
  · rw [if_pos hdl]
    simp only [show ¬ dl ≤ st.block_number from by omega, iff_false]
    repeat' first
      | (refine andThen_no_deadline _ _ (inner_burn_no_deadline _ _ _ _) fun _ => ?_)
      | (refine andThen_no_deadline _ _ (currency_transfer_no_deadline _ _ _ _ _) fun _ => ?_)
      | (refine andThen_no_deadline _ _ (inner_transfer_no_deadline _ _ _ _ _) fun _ => ?_)
      | split
      | split_ifs
      | simp
  · rw [if_neg hdl]
    simp
    omega

theorem currency_to_tokens_input_deadline_iff (o e cs mt dl r : Nat) (st : St) :
    (currency_to_tokens_input o e cs mt dl r st).1 = Except.error Err.Deadline ↔
      dl ≤ st.block_number := by
  unfold currency_to_tokens_input
  by_cases hdl : dl > st.block_number
  · rw [if_pos hdl]
    simp only [show ¬ dl ≤ st.block_number from by omega, iff_false]
    repeat' first
      | (refine andThen_no_deadline _ _ (currency_transfer_no_deadline _ _ _ _ _) fun _ => ?_)
      | (refine andThen_no_deadline _ _ (inner_transfer_no_deadline _ _ _ _ _) fun _ => ?_)
      | split
      | split_ifs
      | simp
  · rw [if_neg hdl]
    simp
    omega

theorem currency_to_tokens_output_deadline_iff (o e tb mc dl r : Nat) (st : St) :
    (currency_to_tokens_output o e tb mc dl r st).1 = Except.error Err.Deadline ↔
      dl < st.block_number := by
  unfold currency_to_tokens_output
  by_cases hdl : dl ≥ st.block_number
  · rw [if_pos hdl]
    simp only [show ¬ dl < st.block_number from by omega, iff_false]
    repeat' first
      | (refine andThen_no_deadline _ _ (currency_transfer_no_deadline _ _ _ _ _) fun _ => ?_)
      | (refine andThen_no_deadline _ _ (inner_transfer_no_deadline _ _ _ _ _) fun _ => ?_)
      | split
      | split_ifs
      | simp
  · rw [if_neg hdl]
    simp
    omega

theorem tokens_to_currency_input_deadline_iff (o e ts mc dl r : Nat) (st : St) :
    (tokens_to_currency_input o e ts mc dl r st).1 = Except.error Err.Deadline ↔
      dl < st.block_number := by
  unfold tokens_to_currency_input
  by_cases hdl : dl ≥ st.block_number
  · rw [if_pos hdl]
    simp only [show ¬ dl < st.block_number from by omega, iff_false]
    repeat' first
      | (refine andThen_no_deadline _ _ (currency_transfer_no_deadline _ _ _ _ _) fun _ => ?_)
      | (refine andThen_no_deadline _ _ (inner_transfer_from_no_deadline _ _ _ _ _ _) fun _ => ?_)
      | split
      | split_ifs
      | simp
  · rw [if_neg hdl]
    simp
    omega

theorem tokens_to_currency_output_deadline_iff (o e cb mt dl r : Nat) (st : St) :
    (tokens_to_currency_output o e cb mt dl r st).1 = Except.error Err.Deadline ↔
      dl < st.block_number := by
  unfold tokens_to_currency_output
  by_cases hdl : dl ≥ st.block_number
  · rw [if_pos hdl]
    simp only [show ¬ dl < st.block_number from by omega, iff_false]
    repeat' first
      | (refine andThen_no_deadline _ _ (currency_transfer_no_deadline _ _ _ _ _) fun _ => ?_)
      | (refine andThen_no_deadline _ _ (inner_transfer_from_no_deadline _ _ _ _ _ _) fun _ => ?_)
      | split
      | split_ifs
      | simp
  · rw [if_neg hdl]
    simp
    omega

theorem token_to_token_input_deadline_iff (o e oe ts mo dl r : Nat) (st : St) :
    (token_to_token_input o e oe ts mo dl r st).1 = Except.error Err.Deadline ↔
      dl < st.block_number := by
  unfold token_to_token_input
  by_cases hdl : dl ≥ st.block_number
  · rw [if_pos hdl]
    simp only [show ¬ dl < st.block_number from by omega, iff_false]
    repeat' first
      | (refine andThen_no_deadline _ _ (inner_transfer_from_no_deadline _ _ _ _ _ _) fun _ => ?_)
      | (refine andThen_no_deadline _ _ (currency_transfer_no_deadline _ _ _ _ _) fun _ => ?_)
      | (refine andThen_no_deadline _ _ (inner_transfer_no_deadline _ _ _ _ _) fun _ => ?_)
      | split
      | split_ifs
      | simp
  · rw [if_neg hdl]
    simp
    omega

theorem token_to_token_output_deadline_iff (o e oe ob mt dl r : Nat) (st : St) :
    (token_to_token_output o e oe ob mt dl r st).1 = Except.error Err.Deadline ↔
      dl < st.block_number := by
  unfold token_to_token_output
  by_cases hdl : dl ≥ st.block_number
  · rw [if_pos hdl]
    simp only [show ¬ dl < st.block_number from by omega, iff_false]
    repeat' first
      | (refine andThen_no_deadline _ _ (inner_transfer_from_no_deadline _ _ _ _ _ _) fun _ => ?_)
      | (refine andThen_no_deadline _ _ (currency_transfer_no_deadline _ _ _ _ _) fun _ => ?_)
      | (refine andThen_no_deadline _ _ (inner_transfer_no_deadline _ _ _ _ _) fun _ => ?_)
      | split
      | split_ifs
      | simp
  · rw [if_neg hdl]
    simp
    omega

/-- Claim C5, amended: the deadline predicates of the eight deadline-
checked dispatchables.  `currency_to_tokens_output`,
`tokens_to_currency_input`, `tokens_to_currency_output`,
`token_to_token_input` and `token_to_token_output` use the inclusive
predicate (rejected with `Deadline` iff `deadline < now`), while
`add_liquidity`, `remove_liquidity` AND `currency_to_tokens_input` use
the strict one (rejected iff `deadline ≤ now`). -/
theorem c5_deadline_predicates :
    (∀ o e cs mt dl r st, (currency_to_tokens_input o e cs mt dl r st).1 =
      Except.error Err.Deadline ↔ dl ≤ st.block_number) ∧
    (∀ o e tb mc dl r st, (currency_to_tokens_output o e tb mc dl r st).1 =
      Except.error Err.Deadline ↔ dl < st.block_number) ∧
    (∀ o e ts mc dl r st, (tokens_to_currency_input o e ts mc dl r st).1 =
      Except.error Err.Deadline ↔ dl < st.block_number) ∧
    (∀ o e cb mt dl r st, (tokens_to_currency_output o e cb mt dl r st).1 =
      Except.error Err.Deadline ↔ dl < st.block_number) ∧
    (∀ o e oe ts mo dl r st, (token_to_token_input o e oe ts mo dl r st).1 =
      Except.error Err.Deadline ↔ dl < st.block_number) ∧
    (∀ o e oe ob mt dl r st, (token_to_token_output o e oe ob mt dl r st).1 =
      Except.error Err.Deadline ↔ dl < st.block_number) ∧
    (∀ o e ca ml mt dl st, (add_liquidity o e ca ml mt dl st).1 =
      Except.error Err.Deadline ↔ dl ≤ st.block_number) ∧
    (∀ o e z mc mt dl st, (remove_liquidity o e z mc mt dl st).1 =
      Except.error Err.Deadline ↔ dl ≤ st.block_number) :=
  ⟨fun o e cs mt dl r st => currency_to_tokens_input_deadline_iff o e cs mt dl r st,
   fun o e tb mc dl r st => currency_to_tokens_output_deadline_iff o e tb mc dl r st,
   fun o e ts mc dl r st => tokens_to_currency_input_deadline_iff o e ts mc dl r st,
   fun o e cb mt dl r st => tokens_to_currency_output_deadline_iff o e cb mt dl r st,
   fun o e oe ts mo dl r st => token_to_token_input_deadline_iff o e oe ts mo dl r st,
   fun o e oe ob mt dl r st => token_to_token_output_deadline_iff o e oe ob mt dl r st,
   fun o e ca ml mt dl st => add_liquidity_deadline_iff o e ca ml mt dl st,
   fun o e z mc mt dl st => remove_liquidity_deadline_iff o e z mc mt dl st⟩

/-! ## Success characterizations of the atomic steps -/

theorem andThen_ok_split (x : Except Err Unit × St) (f : St → Except Err Unit × St)
    (h : isOk (andThen x f).1 = true) :
    isOk x.1 = true ∧ andThen x f = f x.2 := by
  rcases x with ⟨r, st⟩
  cases r with
  | ok u => exact ⟨rfl, rfl⟩
  | error e => simp [andThen, isOk] at h

theorem currency_transfer_frame (f t a : Nat) (k : Bool) (st : St) :
    (currency_transfer f t a k st).2.balances = st.balances ∧
    (currency_transfer f t a k st).2.allowances = st.allowances ∧
    (currency_transfer f t a k st).2.total_supply = st.total_supply ∧
    (currency_transfer f t a k st).2.events = st.events ∧
    (currency_transfer f t a k st).2.next_asset_id = st.next_asset_id ∧
    (currency_transfer f t a k st).2.exchanges = st.exchanges ∧
    (currency_transfer f t a k st).2.asset_infos = st.asset_infos := by
  unfold currency_transfer
  dsimp only
  split_ifs <;> simp

theorem currency_transfer_ok_free (f t a : Nat) (k : Bool) (st : St)
    (h : isOk (currency_transfer f t a k st).1 = true) :
    (currency_transfer f t a k st).2.free =
      aset (aset st.free f (lookup0 st.free f - a)) t
        (lookup0 (aset st.free f (lookup0 st.free f - a)) t + a) ∧
    a ≤ lookup0 st.free f := by
  unfold currency_transfer at h ⊢
  dsimp only at h ⊢
  split_ifs at h ⊢ with h1 h2
  · simp [isOk] at h
  · simp [isOk] at h
  · exact ⟨rfl, by omega⟩

theorem inner_mint_ok (id t a : Nat) (st : St)
    (h : isOk (inner_mint id t a st).1 = true) :
    (inner_mint id t a st).2 = { st with
      balances := aset st.balances (id, t) (lookup0 st.balances (id, t) + a)
      total_supply := aset st.total_supply id (lookup0 st.total_supply id + a) } ∧
    lookup0 st.balances (id, t) + a < W128 ∧
    lookup0 st.total_supply id + a < W128 := by
  unfold inner_mint at h ⊢
  dsimp only at h ⊢
  split_ifs at h ⊢ with h1
  · exact ⟨rfl, h1.1, h1.2⟩
  · simp [isOk] at h

theorem inner_burn_ok (id f a : Nat) (st : St)
    (h : isOk (inner_burn id f a st).1 = true) :
    (inner_burn id f a st).2 = { st with
      balances := aset st.balances (id, f) (lookup0 st.balances (id, f) - a)
      total_supply := aset st.total_supply id (lookup0 st.total_supply id - a) } ∧
    a ≤ lookup0 st.balances (id, f) := by
  unfold inner_burn at h ⊢
  dsimp only at h ⊢
  split_ifs at h ⊢ with h1
  · simp [isOk] at h
  · exact ⟨rfl, by omega⟩

theorem transfer_ok_state (o id tg a : Nat) (st : St)
    (h : isOk (transfer o id tg a st).1 = true) :
    (transfer o id tg a st).2 = { st with
      events := Event.Transferred id o tg a :: st.events
      balances := aset (aset st.balances (id, o) (lookup0 st.balances (id, o) - a)) (id, tg)
        ((lookup0 (aset st.balances (id, o) (lookup0 st.balances (id, o) - a)) (id, tg) + a)
          % W128) } ∧
    0 < a ∧ a ≤ lookup0 st.balances (id, o) := by
  unfold transfer at h ⊢
  dsimp only at h ⊢
  split_ifs at h ⊢ with h1 h2
  · simp [isOk] at h
  · simp [isOk] at h
  · exact ⟨rfl, by omega, by omega⟩

theorem transfer_from_ok_state (sp id ow tg a : Nat) (st : St)
    (h : isOk (transfer_from sp id ow tg a st).1 = true) :
    transfer_from sp id ow tg a st =
      transfer ow id tg a { st with
        allowances := aset st.allowances (id, ow, sp)
          (lookup0 st.allowances (id, ow, sp) - a) } ∧
    a ≤ lookup0 st.allowances (id, ow, sp) := by
  unfold transfer_from at h ⊢
  dsimp only at h ⊢
  split_ifs at h ⊢ with h1
  · simp [isOk] at h
  · exact ⟨rfl, by omega⟩

theorem satU64_eq_of_le (v : Nat) (h : v ≤ u64Max) : satU64 v = v := by
  unfold satU64
  rw [if_pos h]

/-- Claim C4, amended: on a pool with positive liquidity supply `L`
(currency reserve `CR`, token reserve `TR`), a successful
`add_liquidity` with `currency_amount` and `CR` in the `u64` conversion
domain deposits `⌊currency_amount · TR / CR⌋` tokens (floor, not
ceiling) into the pool, mints `⌊currency_amount · L / CR⌋` shares to the
caller, and records the floor token amount in `LiquidityAdded`. -/
theorem c4_add_liquidity_amounts
    (st : St) (o e ca ml mt dl : Nat) (ex : Exchange)
    (hex : alookup st.exchanges e = some ex)
    (hL : 0 < lookup0 st.total_supply ex.liquidity_id)
    (hca : ca ≤ u64Max)
    (hCR : get_currency_reserve ex st ≤ u64Max)
    (hne : o ≠ ex.account)
    (hnid : ex.liquidity_id ≠ ex.token_id)
    (hsum : sum_for st.balances ex.token_id < W128)
    (hok : isOk (add_liquidity o e ca ml mt dl st).1 = true) :
    lookup0 (add_liquidity o e ca ml mt dl st).2.balances (ex.token_id, ex.account) =
      get_token_reserve ex st +
        ca * get_token_reserve ex st / get_currency_reserve ex st ∧
    lookup0 (add_liquidity o e ca ml mt dl st).2.balances (ex.liquidity_id, o) =
      lookup0 st.balances (ex.liquidity_id, o) +
        ca * lookup0 st.total_supply ex.liquidity_id / get_currency_reserve ex st ∧
    (add_liquidity o e ca ml mt dl st).2.events.head? =
      some (Event.LiquidityAdded e o ca
        (ca * get_token_reserve ex st / get_currency_reserve ex st)) := by
  have hconv_ca : convert ca = ca := satU64_eq_of_le ca hca
  have hconv_cr : convert (get_currency_reserve ex st) = get_currency_reserve ex st :=
    satU64_eq_of_le _ hCR
  have hkpo : ((ex.token_id, ex.account) : Nat × Nat) ≠ (ex.token_id, o) :=
    fun hq => hne (congrArg Prod.snd hq).symm
  have hkop : ((ex.token_id, o) : Nat × Nat) ≠ (ex.token_id, ex.account) :=
    fun hq => hne (congrArg Prod.snd hq)
  have hkpl : ((ex.token_id, ex.account) : Nat × Nat) ≠ (ex.liquidity_id, o) :=
    fun hq => hnid (congrArg Prod.fst hq).symm
  have hkol : ((ex.token_id, o) : Nat × Nat) ≠ (ex.liquidity_id, o) :=
    fun hq => hnid (congrArg Prod.fst hq).symm
  have hklo : ((ex.liquidity_id, o) : Nat × Nat) ≠ (ex.token_id, o) :=
    fun hq => hnid (congrArg Prod.fst hq)
  have hklp : ((ex.liquidity_id, o) : Nat × Nat) ≠ (ex.token_id, ex.account) :=
    fun hq => hnid (congrArg Prod.fst hq)
  unfold add_liquidity at hok ⊢
  rw [hex] at hok ⊢
  dsimp only at hok ⊢
  rw [hconv_ca, hconv_cr] at hok ⊢
  split_ifs at hok ⊢ with h1 h2 h3 h4 h5 h6 h7
  case _ =>
    obtain ⟨hok1, he1⟩ := andThen_ok_split _ _ hok
    rw [he1] at hok ⊢
    obtain ⟨hbal1, hallow1, hts1, hev1, hnai1, hexs1, hinfo1⟩ :=
      currency_transfer_frame o ex.account ca true st
    obtain ⟨hok2, he2⟩ := andThen_ok_split _ _ hok
    rw [he2] at hok ⊢
    obtain ⟨hmint_st, hmb, hmt2⟩ := inner_mint_ok _ _ _ _ hok2
    rw [hmint_st] at hok ⊢
    obtain ⟨hok3, he3⟩ := andThen_ok_split _ _ hok
    rw [he3] at hok ⊢
    dsimp only at hok ⊢
    rw [show (inner_transfer_from ex.token_id o ex.account ex.account
        (ca * get_token_reserve ex st / get_currency_reserve ex st)) = (transfer_from
        ex.account ex.token_id o ex.account
        (ca * get_token_reserve ex st / get_currency_reserve ex st)) from rfl] at hok3 ⊢
    obtain ⟨htf, hallow⟩ := transfer_from_ok_state _ _ _ _ _ _ hok3
    rw [htf] at hok3 ⊢
    obtain ⟨htr, hpos, hble⟩ := transfer_ok_state _ _ _ _ _ hok3
    rw [htr]
    dsimp only [push_event] at hble ⊢
    rw [lookup0_aset_ne _ _ _ _ hkol, hbal1] at hble
    refine ⟨?_, ?_, rfl⟩
    · rw [lookup0_aset_self, lookup0_aset_ne _ _ _ _ hkpo,
        lookup0_aset_ne _ _ _ _ hkpl, hbal1]
      have hTR : lookup0 st.balances (ex.token_id, ex.account) = get_token_reserve ex st := rfl
      rw [hTR]
      apply Nat.mod_eq_of_lt
      have h2sum := lookup0_add_le_sum_for st.balances (ex.token_id, ex.account)
        (ex.token_id, o) ex.token_id hkpo rfl rfl
      rw [hTR] at h2sum
      omega
    · rw [lookup0_aset_ne _ _ _ _ hklp, lookup0_aset_ne _ _ _ _ hklo,
        lookup0_aset_self, hbal1]
  all_goals first
    | simp [isOk] at hok
    | omega

theorem transfer_frame (o id tg a : Nat) (st : St) :
    (transfer o id tg a st).2.free = st.free ∧
    (transfer o id tg a st).2.total_supply = st.total_supply ∧
    (transfer o id tg a st).2.allowances = st.allowances ∧
    (transfer o id tg a st).2.exchanges = st.exchanges := by
  unfold transfer
  dsimp only
  split_ifs <;> simp

theorem transfer_from_frame (sp id ow tg a : Nat) (st : St) :
    (transfer_from sp id ow tg a st).2.free = st.free ∧
    (transfer_from sp id ow tg a st).2.total_supply = st.total_supply ∧
    (transfer_from sp id ow tg a st).2.exchanges = st.exchanges := by
  unfold transfer_from
  dsimp only
  split_ifs
  · exact ⟨rfl, rfl, rfl⟩
  · exact ⟨(transfer_frame _ _ _ _ _).1, (transfer_frame _ _ _ _ _).2.1,
      (transfer_frame _ _ _ _ _).2.2.2⟩

/-- Constant-product monotonicity for a successful
`currency_to_tokens_input` within the `u64` conversion domain. -/
theorem c2t_input_product (st : St) (o e x mt dl r : Nat) (ex : Exchange)
    (hex : alookup st.exchanges e = some ex)
    (hCRpos : 0 < get_currency_reserve ex st)
    (hTRpos : 0 < get_token_reserve ex st)
    (hCR : get_currency_reserve ex st ≤ u64Max)
    (hx : x ≤ u64Max)
    (hne : o ≠ ex.account)
    (hsum : sum_for st.balances ex.token_id < W128)
    (hok : isOk (currency_to_tokens_input o e x mt dl r st).1 = true) :
    get_currency_reserve ex st * get_token_reserve ex st ≤
      get_currency_reserve ex ((currency_to_tokens_input o e x mt dl r st).2) *
        get_token_reserve ex ((currency_to_tokens_input o e x mt dl r st).2) := by
  have hconv_x : convert x = x := satU64_eq_of_le x hx
  have hconv_cr : convert (get_currency_reserve ex st) = get_currency_reserve ex st :=
    satU64_eq_of_le _ hCR
  have hkpo : ((ex.token_id, ex.account) : Nat × Nat) ≠ (ex.token_id, o) :=
    fun hq => hne (congrArg Prod.snd hq).symm
  have hao : (ex.account : Nat) ≠ o := fun hq => hne hq.symm
  unfold currency_to_tokens_input at hok ⊢
  rw [hex] at hok ⊢
  dsimp only at hok ⊢
  rw [hconv_x, hconv_cr] at hok ⊢
  split_ifs at hok ⊢ with h1 h2 h3 h4
  case _ =>
    set y := get_input_price x (get_currency_reserve ex st) (get_token_reserve ex st) with hy
    obtain ⟨hok1, he1⟩ := andThen_ok_split _ _ hok
    rw [he1] at hok ⊢
    obtain ⟨hbal1, hallow1, hts1, hev1, hnai1, hexs1, hinfo1⟩ :=
      currency_transfer_frame o ex.account x true st
    obtain ⟨hfree1, hxle⟩ := currency_transfer_ok_free o ex.account x true st hok1
    obtain ⟨hok2, he2⟩ := andThen_ok_split _ _ hok
    rw [he2] at hok ⊢
    rw [show (inner_transfer ex.token_id ex.account r y) =
      (transfer ex.account ex.token_id r y) from rfl] at hok2 ⊢
    obtain ⟨htr, hypos, hyle⟩ := transfer_ok_state _ _ _ _ _ hok2
    rw [htr]
    dsimp only [push_event, get_currency_reserve, get_token_reserve]
    rw [hbal1] at hyle
    rw [hfree1, hbal1]
    -- currency reserve after: CR + x
    rw [lookup0_aset_self, lookup0_aset_ne _ _ _ _ hao]
    -- token side
    by_cases hr : r = ex.account
    · rw [hr]
      rw [lookup0_aset_self, lookup0_aset_self, Nat.sub_add_cancel hyle,
        Nat.mod_eq_of_lt (by
          have := lookup0_le_sum_for st.balances (ex.token_id, ex.account) ex.token_id rfl
          omega)]
      exact Nat.mul_le_mul_right _ (Nat.le_add_right _ _)
    · rw [lookup0_aset_ne _ _ _ _
        (fun hq => hr (congrArg Prod.snd hq).symm : ((ex.token_id, ex.account) : Nat × Nat) ≠ (ex.token_id, r)),
        lookup0_aset_self]
      exact product_after_input x (get_currency_reserve ex st) (get_token_reserve ex st)
  all_goals simp [isOk] at hok

/-- Constant-product monotonicity for a successful
`currency_to_tokens_output` within the `u64` conversion domain. -/
theorem c2t_output_product (st : St) (o e tb mc dl r : Nat) (ex : Exchange)
    (hex : alookup st.exchanges e = some ex)
    (hCRpos : 0 < get_currency_reserve ex st)
    (hTRpos : 0 < get_token_reserve ex st)
    (hCR : get_currency_reserve ex st ≤ u64Max)
    (htb : tb < get_token_reserve ex st)
    (hprice : get_output_price tb (get_currency_reserve ex st) (get_token_reserve ex st) ≤ u64Max)
    (hne : o ≠ ex.account)
    (hsum : sum_for st.balances ex.token_id < W128)
    (hok : isOk (currency_to_tokens_output o e tb mc dl r st).1 = true) :
    get_currency_reserve ex st * get_token_reserve ex st ≤
      get_currency_reserve ex ((currency_to_tokens_output o e tb mc dl r st).2) *
        get_token_reserve ex ((currency_to_tokens_output o e tb mc dl r st).2) := by
  have hconv_cr : convert (get_currency_reserve ex st) = get_currency_reserve ex st :=
    satU64_eq_of_le _ hCR
  have hao : (ex.account : Nat) ≠ o := fun hq => hne hq.symm
  unfold currency_to_tokens_output at hok ⊢
  rw [hex] at hok ⊢
  dsimp only at hok ⊢
  rw [hconv_cr] at hok ⊢
  rw [show unconvert (get_output_price tb (get_currency_reserve ex st)
      (get_token_reserve ex st)) = get_output_price tb (get_currency_reserve ex st)
      (get_token_reserve ex st) from satU64_eq_of_le _ hprice] at hok ⊢
  split_ifs at hok ⊢ with h1 h2 h3 h4
  case _ =>
    set p := get_output_price tb (get_currency_reserve ex st) (get_token_reserve ex st) with hp
    obtain ⟨hok1, he1⟩ := andThen_ok_split _ _ hok
    rw [he1] at hok ⊢
    obtain ⟨hbal1, hallow1, hts1, hev1, hnai1, hexs1, hinfo1⟩ :=
      currency_transfer_frame o ex.account p true st
    obtain ⟨hfree1, hple⟩ := currency_transfer_ok_free o ex.account p true st hok1
    obtain ⟨hok2, he2⟩ := andThen_ok_split _ _ hok
    rw [he2] at hok ⊢
    rw [show (inner_transfer ex.token_id ex.account r tb) =
      (transfer ex.account ex.token_id r tb) from rfl] at hok2 ⊢
    obtain ⟨htr, htbpos, htble⟩ := transfer_ok_state _ _ _ _ _ hok2
    rw [htr]
    dsimp only [push_event, get_currency_reserve, get_token_reserve]
    rw [hbal1] at htble
    rw [hfree1, hbal1]
    rw [lookup0_aset_self, lookup0_aset_ne _ _ _ _ hao]
    by_cases hr : r = ex.account
    · rw [hr]
      rw [lookup0_aset_self, lookup0_aset_self, Nat.sub_add_cancel htble,
        Nat.mod_eq_of_lt (by
          have := lookup0_le_sum_for st.balances (ex.token_id, ex.account) ex.token_id rfl
          omega)]
      exact Nat.mul_le_mul_right _ (Nat.le_add_right _ _)
    · rw [lookup0_aset_ne _ _ _ _
        (fun hq => hr (congrArg Prod.snd hq).symm :
          ((ex.token_id, ex.account) : Nat × Nat) ≠ (ex.token_id, r)),
        lookup0_aset_self]
      exact product_after_output tb (get_currency_reserve ex st) (get_token_reserve ex st) htb
  all_goals simp [isOk] at hok

/-- Constant-product monotonicity for a successful
`tokens_to_currency_input` within the `u64` conversion domain. -/
theorem t2c_input_product (st : St) (o e ts mc dl r : Nat) (ex : Exchange)
    (hex : alookup st.exchanges e = some ex)
    (hCRpos : 0 < get_currency_reserve ex st)
    (hTRpos : 0 < get_token_reserve ex st)
    (hCR : get_currency_reserve ex st ≤ u64Max)
    (hne : o ≠ ex.account)
    (hsum : sum_for st.balances ex.token_id < W128)
    (hok : isOk (tokens_to_currency_input o e ts mc dl r st).1 = true) :
    get_currency_reserve ex st * get_token_reserve ex st ≤
      get_currency_reserve ex ((tokens_to_currency_input o e ts mc dl r st).2) *
        get_token_reserve ex ((tokens_to_currency_input o e ts mc dl r st).2) := by
  have hconv_cr : convert (get_currency_reserve ex st) = get_currency_reserve ex st :=
    satU64_eq_of_le _ hCR
  have hkpo : ((ex.token_id, ex.account) : Nat × Nat) ≠ (ex.token_id, o) :=
    fun hq => hne (congrArg Prod.snd hq).symm
  have hcle : get_input_price ts (get_token_reserve ex st) (get_currency_reserve ex st) ≤
      get_currency_reserve ex st :=
    get_input_price_le_out ts (get_token_reserve ex st) (get_currency_reserve ex st)
  unfold tokens_to_currency_input at hok ⊢
  rw [hex] at hok ⊢
  dsimp only at hok ⊢
  rw [hconv_cr] at hok ⊢
  rw [show unconvert (get_input_price ts (get_token_reserve ex st)
      (get_currency_reserve ex st)) = get_input_price ts (get_token_reserve ex st)
      (get_currency_reserve ex st) from satU64_eq_of_le _ (le_trans hcle hCR)] at hok ⊢
  split_ifs at hok ⊢ with h1 h2 h3 h4
  case _ =>
    set c := get_input_price ts (get_token_reserve ex st) (get_currency_reserve ex st) with hc
    obtain ⟨hok1, he1⟩ := andThen_ok_split _ _ hok
    rw [he1] at hok ⊢
    obtain ⟨hbal1, hallow1, hts1, hev1, hnai1, hexs1, hinfo1⟩ :=
      currency_transfer_frame ex.account r c false st
    obtain ⟨hfree1, hcle2⟩ := currency_transfer_ok_free ex.account r c false st hok1
    obtain ⟨hok2, he2⟩ := andThen_ok_split _ _ hok
    rw [he2] at hok ⊢
    rw [show (inner_transfer_from ex.token_id o ex.account ex.account ts) =
      (transfer_from ex.account ex.token_id o ex.account ts) from rfl] at hok2 ⊢
    obtain ⟨htf, hallow⟩ := transfer_from_ok_state _ _ _ _ _ _ hok2
    rw [htf] at hok2 ⊢
    obtain ⟨htr, htspos, htsle⟩ := transfer_ok_state _ _ _ _ _ hok2
    rw [htr]
    dsimp only [push_event, get_currency_reserve, get_token_reserve]
    rw [hbal1] at htsle
    rw [hfree1, hbal1]
    -- token side: pool is credited with ts
    rw [lookup0_aset_self, lookup0_aset_ne _ _ _ _ hkpo,
      Nat.mod_eq_of_lt (by
        have h2sum := lookup0_add_le_sum_for st.balances (ex.token_id, ex.account)
          (ex.token_id, o) ex.token_id hkpo rfl rfl
        omega)]
    -- currency side
    by_cases hr : r = ex.account
    · rw [hr]
      rw [lookup0_aset_self, lookup0_aset_self, Nat.sub_add_cancel hcle2]
      exact Nat.mul_le_mul_left _ (Nat.le_add_right _ _)
    · rw [lookup0_aset_ne _ _ _ _ (fun hq => hr hq.symm : (ex.account : Nat) ≠ r),
        lookup0_aset_self]
      have h := product_after_input ts (get_token_reserve ex st) (get_currency_reserve ex st)
      calc get_currency_reserve ex st * get_token_reserve ex st
          = get_token_reserve ex st * get_currency_reserve ex st := Nat.mul_comm _ _
        _ ≤ (get_token_reserve ex st + ts) * (get_currency_reserve ex st - c) := h
        _ = (get_currency_reserve ex st - c) * (get_token_reserve ex st + ts) :=
            Nat.mul_comm _ _
  all_goals simp [isOk] at hok

/-- Constant-product monotonicity for a successful
`tokens_to_currency_output` within the `u64` conversion domain. -/
theorem t2c_output_product (st : St) (o e cb mt dl r : Nat) (ex : Exchange)
    (hex : alookup st.exchanges e = some ex)
    (hCRpos : 0 < get_currency_reserve ex st)
    (hTRpos : 0 < get_token_reserve ex st)
    (hCR : get_currency_reserve ex st ≤ u64Max)
    (hcb : cb ≤ u64Max)
    (hcbCR : cb < get_currency_reserve ex st)
    (hne : o ≠ ex.account)
    (hner : r ≠ ex.account)
    (hsum : sum_for st.balances ex.token_id < W128)
    (hok : isOk (tokens_to_currency_output o e cb mt dl r st).1 = true) :
    get_currency_reserve ex st * get_token_reserve ex st ≤
      get_currency_reserve ex ((tokens_to_currency_output o e cb mt dl r st).2) *
        get_token_reserve ex ((tokens_to_currency_output o e cb mt dl r st).2) := by
  have hconv_cr : convert (get_currency_reserve ex st) = get_currency_reserve ex st :=
    satU64_eq_of_le _ hCR
  have hconv_cb : convert cb = cb := satU64_eq_of_le cb hcb
  have hkpr : ((ex.token_id, ex.account) : Nat × Nat) ≠ (ex.token_id, r) :=
    fun hq => hner (congrArg Prod.snd hq).symm
  unfold tokens_to_currency_output at hok ⊢
  rw [hex] at hok ⊢
  dsimp only at hok ⊢
  rw [hconv_cr, hconv_cb] at hok ⊢
  split_ifs at hok ⊢ with h1 h2 h3 h4
  case _ =>
    set ts := get_output_price cb (get_token_reserve ex st) (get_currency_reserve ex st)
      with hts
    obtain ⟨hok1, he1⟩ := andThen_ok_split _ _ hok
    rw [he1] at hok ⊢
    obtain ⟨hbal1, hallow1, hts1, hev1, hnai1, hexs1, hinfo1⟩ :=
      currency_transfer_frame ex.account o cb false st
    obtain ⟨hfree1, hcble⟩ := currency_transfer_ok_free ex.account o cb false st hok1
    obtain ⟨hok2, he2⟩ := andThen_ok_split _ _ hok
    rw [he2] at hok ⊢
    rw [show (inner_transfer_from ex.token_id r ex.account ex.account ts) =
      (transfer_from ex.account ex.token_id r ex.account ts) from rfl] at hok2 ⊢
    obtain ⟨htf, hallow⟩ := transfer_from_ok_state _ _ _ _ _ _ hok2
    rw [htf] at hok2 ⊢
    obtain ⟨htr, htspos, htsle⟩ := transfer_ok_state _ _ _ _ _ hok2
    rw [htr]
    dsimp only [push_event, get_currency_reserve, get_token_reserve]
    rw [hbal1] at htsle
    rw [hfree1, hbal1]
    rw [lookup0_aset_self, lookup0_aset_ne _ _ _ _ hkpr,
      Nat.mod_eq_of_lt (by
        have h2sum := lookup0_add_le_sum_for st.balances (ex.token_id, ex.account)
          (ex.token_id, r) ex.token_id hkpr rfl rfl
        omega)]
    rw [lookup0_aset_ne _ _ _ _ (fun hq => hne hq.symm : (ex.account : Nat) ≠ o),
      lookup0_aset_self]
    have h := product_after_output cb (get_token_reserve ex st) (get_currency_reserve ex st)
      hcbCR
    calc get_currency_reserve ex st * get_token_reserve ex st
        = get_token_reserve ex st * get_currency_reserve ex st := Nat.mul_comm _ _
      _ ≤ (get_token_reserve ex st + ts) * (get_currency_reserve ex st - cb) := h
      _ = (get_currency_reserve ex st - cb) * (get_token_reserve ex st + ts) :=
          Nat.mul_comm _ _
  all_goals simp [isOk] at hok

/-- Claim C3, amended: for every successful single-pool swap on a pool
with strictly positive reserves, the reserve product is non-decreasing
PROVIDED the amounts and reserves passing through the saturating `u64`
conversion stay inside its domain (currency reserve, currency amounts
and the computed exact-out cost at most `u64::MAX`), the exact-out token
amount is below the token reserve, the buyer is not the pool account
itself, and (for `tokens_to_currency_output`, which draws the tokens
from the recipient) neither is the recipient. -/
theorem c3_product_monotonic_amended :
    (∀ st o e x mt dl r ex, alookup st.exchanges e = some ex →
      0 < get_currency_reserve ex st → 0 < get_token_reserve ex st →
      get_currency_reserve ex st ≤ u64Max → x ≤ u64Max →
      o ≠ ex.account → sum_for st.balances ex.token_id < W128 →
      isOk (currency_to_tokens_input o e x mt dl r st).1 = true →
      get_currency_reserve ex st * get_token_reserve ex st ≤
        get_currency_reserve ex ((currency_to_tokens_input o e x mt dl r st).2) *
          get_token_reserve ex ((currency_to_tokens_input o e x mt dl r st).2)) ∧
    (∀ st o e tb mc dl r ex, alookup st.exchanges e = some ex →
      0 < get_currency_reserve ex st → 0 < get_token_reserve ex st →
      get_currency_reserve ex st ≤ u64Max → tb < get_token_reserve ex st →
      get_output_price tb (get_currency_reserve ex st) (get_token_reserve ex st) ≤ u64Max →
      o ≠ ex.account → sum_for st.balances ex.token_id < W128 →
      isOk (currency_to_tokens_output o e tb mc dl r st).1 = true →
      get_currency_reserve ex st * get_token_reserve ex st ≤
        get_currency_reserve ex ((currency_to_tokens_output o e tb mc dl r st).2) *
          get_token_reserve ex ((currency_to_tokens_output o e tb mc dl r st).2)) ∧
    (∀ st o e ts mc dl r ex, alookup st.exchanges e = some ex →
      0 < get_currency_reserve ex st → 0 < get_token_reserve ex st →
      get_currency_reserve ex st ≤ u64Max →
      o ≠ ex.account → sum_for st.balances ex.token_id < W128 →
      isOk (tokens_to_currency_input o e ts mc dl r st).1 = true →
      get_currency_reserve ex st * get_token_reserve ex st ≤
        get_currency_reserve ex ((tokens_to_currency_input o e ts mc dl r st).2) *
          get_token_reserve ex ((tokens_to_currency_input o e ts mc dl r st).2)) ∧
    (∀ st o e cb mt dl r ex, alookup st.exchanges e = some ex →
      0 < get_currency_reserve ex st → 0 < get_token_reserve ex st →
      get_currency_reserve ex st ≤ u64Max → cb ≤ u64Max →
      cb < get_currency_reserve ex st →
      o ≠ ex.account → r ≠ ex.account → sum_for st.balances ex.token_id < W128 →
      isOk (tokens_to_currency_output o e cb mt dl r st).1 = true →
      get_currency_reserve ex st * get_token_reserve ex st ≤
        get_currency_reserve ex ((tokens_to_currency_output o e cb mt dl r st).2) *
          get_token_reserve ex ((tokens_to_currency_output o e cb mt dl r st).2)) :=
  ⟨fun st o e x mt dl r ex hex h1 h2 h3 h4 h5 h6 h7 =>
      c2t_input_product st o e x mt dl r ex hex h1 h2 h3 h4 h5 h6 h7,
   fun st o e tb mc dl r ex hex h1 h2 h3 h4 h5 h6 h7 h8 =>
      c2t_output_product st o e tb mc dl r ex hex h1 h2 h3 h4 h5 h6 h7 h8,
   fun st o e ts mc dl r ex hex h1 h2 h3 h4 h5 h6 =>
      t2c_input_product st o e ts mc dl r ex hex h1 h2 h3 h4 h5 h6,
   fun st o e cb mt dl r ex hex h1 h2 h3 h4 h5 h6 h7 h8 h9 =>
      t2c_output_product st o e cb mt dl r ex hex h1 h2 h3 h4 h5 h6 h7 h8 h9⟩

/-- Witness for the amended C3 on a successful `currency_to_tokens_input`
selling 100 currency into the 1000/1000 pool of `c3w_state`. -/
theorem c3_product_monotonic_witness :
    get_currency_reserve pool0 c3w_state * get_token_reserve pool0 c3w_state ≤
      get_currency_reserve pool0 ((currency_to_tokens_input 1 0 100 1 1 2 c3w_state).2) *
        get_token_reserve pool0 ((currency_to_tokens_input 1 0 100 1 1 2 c3w_state).2) :=
  c3_product_monotonic_amended.1 c3w_state 1 0 100 1 1 2 pool0 (by decide) (by decide)
    (by decide) (by decide) (by decide) (by decide) (by decide) (by decide)

/-- Witness for the amended C4 at `c4_state`: a successful
`add_liquidity` of 2 currency against reserves CR = 3, TR = 5, L = 3. -/
theorem c4_add_liquidity_amounts_witness :
    lookup0 (add_liquidity 1 0 2 1 100 5 c4_state).2.balances
        (pool0.token_id, pool0.account) =
      get_token_reserve pool0 c4_state +
        2 * get_token_reserve pool0 c4_state / get_currency_reserve pool0 c4_state ∧
    lookup0 (add_liquidity 1 0 2 1 100 5 c4_state).2.balances (pool0.liquidity_id, 1) =
      lookup0 c4_state.balances (pool0.liquidity_id, 1) +
        2 * lookup0 c4_state.total_supply pool0.liquidity_id /
          get_currency_reserve pool0 c4_state ∧
    (add_liquidity 1 0 2 1 100 5 c4_state).2.events.head? =
      some (Event.LiquidityAdded 0 1 2
        (2 * get_token_reserve pool0 c4_state / get_currency_reserve pool0 c4_state)) :=
  c4_add_liquidity_amounts c4_state 1 0 2 1 100 5 pool0 (by decide) (by decide) (by decide)
    (by decide) (by decide) (by decide) (by decide) (by decide)

/-! ## Invariant preservation (claim C2) -/

theorem inv_of_components (st st2 : St) (h : LedgerInv st)
    (hb : st2.balances = st.balances) (hts : st2.total_supply = st.total_supply)
    (hai : st2.asset_infos = st.asset_infos) (hex : st2.exchanges = st.exchanges)
    (hn : st2.next_asset_id = st.next_asset_id) : LedgerInv st2 := by
  unfold LedgerInv at h ⊢
  rw [hb, hts, hai, hex, hn]
  exact h

theorem inv_alloc (st : St) (o t : Nat) (i : AssetInfo) (ev : List Event)
    (h : LedgerInv st) (hw : t < W128) :
    LedgerInv { st with
      next_asset_id := st.next_asset_id + 1
      balances := aset st.balances (st.next_asset_id, o) t
      total_supply := aset st.total_supply st.next_asset_id t
      asset_infos := aset st.asset_infos st.next_asset_id i
      events := ev } := by
  obtain ⟨hnd, hsums, hWb, hbb, hbt, hbi, hbe⟩ := h
  have hfreshb : ∀ p ∈ st.balances, p.1.1 ≠ st.next_asset_id :=
    fun p hp => Nat.ne_of_lt (hbb p hp)
  have hfresht : ∀ p ∈ st.total_supply, p.1 ≠ st.next_asset_id :=
    fun p hp => Nat.ne_of_lt (hbt p hp)
  refine ⟨nodup_keys_aset _ _ _ hnd, ?_, ?_, ?_, ?_, ?_, ?_⟩
  · intro id
    dsimp only
    by_cases hid : id = st.next_asset_id
    · rw [hid]
      have h1 : sum_for (aset st.balances (st.next_asset_id, o) t) st.next_asset_id +
          lookup0 st.balances (st.next_asset_id, o) =
          sum_for st.balances st.next_asset_id + t :=
        sum_for_aset_same _ _ _ _ rfl hnd
      have h2 : sum_for st.balances st.next_asset_id = 0 :=
        sum_for_zero_of_fresh _ _ hfreshb
      have h3 : lookup0 st.balances (st.next_asset_id, o) = 0 := by
        apply lookup0_zero_of_fresh
        intro p hp hpk
        exact hfreshb p hp (by rw [hpk])
      rw [lookup0_aset_self]
      omega
    · rw [sum_for_aset_ne _ _ _ _
        ((fun hh => hid hh.symm) : ((st.next_asset_id, o) : Nat × Nat).1 ≠ id),
        lookup0_aset_ne _ _ _ _ hid]
      exact hsums id
  · intro id
    dsimp only
    by_cases hid : id = st.next_asset_id
    · rw [hid, lookup0_aset_self]
      exact hw
    · rw [lookup0_aset_ne _ _ _ _ hid]
      exact hWb id
  · intro p hp
    dsimp only at hp ⊢
    rcases mem_aset _ _ _ _ hp with hh | hh
    · rw [hh]
      exact Nat.lt_succ_self _
    · exact Nat.lt_succ_of_lt (hbb p hh)
  · intro p hp
    dsimp only at hp ⊢
    rcases mem_aset _ _ _ _ hp with hh | hh
    · rw [hh]
      exact Nat.lt_succ_self _
    · exact Nat.lt_succ_of_lt (hbt p hh)
  · intro p hp
    dsimp only at hp ⊢
    rcases mem_aset _ _ _ _ hp with hh | hh
    · rw [hh]
      exact Nat.lt_succ_self _
    · exact Nat.lt_succ_of_lt (hbi p hh)
  · intro p hp
    dsimp only at hp ⊢
    exact ⟨Nat.lt_succ_of_lt (hbe p hp).1, Nat.lt_succ_of_lt (hbe p hp).2⟩

theorem inv_issue (o t : Nat) (i : AssetInfo) (st : St) (h : LedgerInv st)
    (hw : t < W128) : LedgerInv (issue o t i st).2 :=
  inv_alloc st o t i _ h hw

theorem inv_inner_issue (o t : Nat) (i : AssetInfo) (st : St) (h : LedgerInv st)
    (hw : t < W128) : LedgerInv (inner_issue o t i st).2 :=
  inv_alloc st o t i _ h hw

theorem inv_currency_transfer (f tg a : Nat) (k : Bool) (st : St) (h : LedgerInv st) :
    LedgerInv (currency_transfer f tg a k st).2 := by
  obtain ⟨hb, _, hts, _, hn, hex, hai⟩ := currency_transfer_frame f tg a k st
  exact inv_of_components st _ h hb hts hai hex hn

theorem inv_push_event (e : Event) (st : St) (h : LedgerInv st) :
    LedgerInv (push_event e st) := by
  exact inv_of_components st _ h rfl rfl rfl rfl rfl

theorem inv_transfer (o id tg a : Nat) (st : St) (h : LedgerInv st) :
    LedgerInv (transfer o id tg a st).2 := by
  obtain ⟨hnd, hsums, hWb, hbb, hbt, hbi, hbe⟩ := h
  unfold transfer
  dsimp only
  split_ifs with h1 h2
  · exact ⟨hnd, hsums, hWb, hbb, hbt, hbi, hbe⟩
  · exact ⟨hnd, hsums, hWb, hbb, hbt, hbi, hbe⟩
  · have ha : 0 < a := by omega
    have hba : a ≤ lookup0 st.balances (id, o) := by omega
    have hmemo : ((id, o), lookup0 st.balances (id, o)) ∈ st.balances :=
      lookup0_mem _ _ (by omega)
    have hido : id < st.next_asset_id := hbb _ hmemo
    have hnd1 : nodup_keys (aset st.balances (id, o) (lookup0 st.balances (id, o) - a)) :=
      nodup_keys_aset _ _ _ hnd
    have hb1sum : lookup0 st.balances (id, o) ≤ sum_for st.balances id :=
      lookup0_le_sum_for _ _ _ rfl
    have hsumW : sum_for st.balances id < W128 := by
      rw [hsums id]
      exact hWb id
    dsimp only
    refine ⟨nodup_keys_aset _ _ _ hnd1, ?_, hWb, ?_, hbt, hbi, hbe⟩
    · intro idp
      dsimp only
      by_cases hid' : idp = id
      · subst hid'
        have e1 := sum_for_aset_same st.balances (idp, o) idp
          (lookup0 st.balances (idp, o) - a) rfl hnd
        by_cases htg : tg = o
        · subst htg
          have hv : lookup0 (aset st.balances (idp, tg) (lookup0 st.balances (idp, tg) - a))
              (idp, tg) = lookup0 st.balances (idp, tg) - a := lookup0_aset_self _ _ _
          rw [hv, show (lookup0 st.balances (idp, tg) - a + a) % W128 =
            lookup0 st.balances (idp, tg) from by
              rw [Nat.sub_add_cancel hba, Nat.mod_eq_of_lt (by omega)]]
          have e2 := sum_for_aset_same
            (aset st.balances (idp, tg) (lookup0 st.balances (idp, tg) - a)) (idp, tg) idp
            (lookup0 st.balances (idp, tg)) rfl hnd1
          rw [hv] at e2
          have := hsums idp
          omega
        · have hktg : ((idp, tg) : Nat × Nat) ≠ (idp, o) := fun hq => htg (congrArg Prod.snd hq)
          have hv : lookup0 (aset st.balances (idp, o) (lookup0 st.balances (idp, o) - a))
              (idp, tg) = lookup0 st.balances (idp, tg) := lookup0_aset_ne _ _ _ _ hktg
          have h2sum := lookup0_add_le_sum_for st.balances (idp, o) (idp, tg) idp
            (fun hq => htg (congrArg Prod.snd hq).symm) rfl rfl
          rw [hv, show (lookup0 st.balances (idp, tg) + a) % W128 =
            lookup0 st.balances (idp, tg) + a from Nat.mod_eq_of_lt (by omega)]
          have e2 := sum_for_aset_same
            (aset st.balances (idp, o) (lookup0 st.balances (idp, o) - a)) (idp, tg) idp
            (lookup0 st.balances (idp, tg) + a) rfl hnd1
          rw [hv] at e2
          have := hsums idp
          omega
      · have hk1 : ((id, o) : Nat × Nat).1 ≠ idp := fun hh => hid' hh.symm
        have hk2 : ((id, tg) : Nat × Nat).1 ≠ idp := fun hh => hid' hh.symm
        rw [sum_for_aset_ne _ _ _ _ hk2, sum_for_aset_ne _ _ _ _ hk1]
        exact hsums idp
    · intro p hp
      rcases mem_aset _ _ _ _ hp with hh | hh
      · rw [hh]
        exact hido
      · rcases mem_aset _ _ _ _ hh with hh2 | hh2
        · rw [hh2]
          exact hido
        · exact hbb p hh2

theorem inv_transfer_from (sp id ow tg a : Nat) (st : St) (h : LedgerInv st) :
    LedgerInv (transfer_from sp id ow tg a st).2 := by
  unfold transfer_from
  dsimp only
  split_ifs with h1
  · exact h
  · exact inv_transfer ow id tg a _ (inv_of_components st _ h rfl rfl rfl rfl rfl)

theorem inv_inner_transfer (id f tg a : Nat) (st : St) (h : LedgerInv st) :
    LedgerInv (inner_transfer id f tg a st).2 :=
  inv_transfer f id tg a st h

theorem inv_inner_transfer_from (id f sp tg a : Nat) (st : St) (h : LedgerInv st) :
    LedgerInv (inner_transfer_from id f sp tg a st).2 :=
  inv_transfer_from sp id f tg a st h

theorem inv_inner_mint (id to_ a : Nat) (st : St) (h : LedgerInv st)
    (hid : id < st.next_asset_id) : LedgerInv (inner_mint id to_ a st).2 := by
  obtain ⟨hnd, hsums, hWb, hbb, hbt, hbi, hbe⟩ := h
  unfold inner_mint
  dsimp only
  split_ifs with h1
  · dsimp only
    refine ⟨nodup_keys_aset _ _ _ hnd, ?_, ?_, ?_, ?_, hbi, hbe⟩
    · intro idp
      dsimp only
      by_cases hid' : idp = id
      · subst hid'
        have e1 := sum_for_aset_same st.balances (idp, to_) idp
          (lookup0 st.balances (idp, to_) + a) rfl hnd
        rw [lookup0_aset_self]
        have := hsums idp
        omega
      · have hk : ((id, to_) : Nat × Nat).1 ≠ idp := fun hh => hid' hh.symm
        rw [sum_for_aset_ne _ _ _ _ hk, lookup0_aset_ne _ _ _ _ hid']
        exact hsums idp
    · intro idp
      dsimp only
      by_cases hid' : idp = id
      · subst hid'
        rw [lookup0_aset_self]
        exact h1.2
      · rw [lookup0_aset_ne _ _ _ _ hid']
        exact hWb idp
    · intro p hp
      rcases mem_aset _ _ _ _ hp with hh | hh
      · rw [hh]
        exact hid
      · exact hbb p hh
    · intro p hp
      rcases mem_aset _ _ _ _ hp with hh | hh
      · rw [hh]
        exact hid
      · exact hbt p hh
  · exact ⟨hnd, hsums, hWb, hbb, hbt, hbi, hbe⟩

theorem inv_inner_burn (id f a : Nat) (st : St) (h : LedgerInv st)
    (hid : id < st.next_asset_id) : LedgerInv (inner_burn id f a st).2 := by
  obtain ⟨hnd, hsums, hWb, hbb, hbt, hbi, hbe⟩ := h
  unfold inner_burn
  dsimp only
  split_ifs with h1
  · exact ⟨hnd, hsums, hWb, hbb, hbt, hbi, hbe⟩
  · have hone : lookup0 st.balances (id, f) ≤ sum_for st.balances id :=
      lookup0_le_sum_for _ _ _ rfl
    refine ⟨nodup_keys_aset _ _ _ hnd, ?_, ?_, ?_, ?_, hbi, hbe⟩
    · intro idp
      dsimp only
      by_cases hid' : idp = id
      · subst hid'
        have e1 := sum_for_aset_same st.balances (idp, f) idp
          (lookup0 st.balances (idp, f) - a) rfl hnd
        rw [lookup0_aset_self]
        have := hsums idp
        have hone2 : lookup0 st.balances (idp, f) ≤ sum_for st.balances idp :=
          lookup0_le_sum_for _ _ _ rfl
        omega
      · have hk : ((id, f) : Nat × Nat).1 ≠ idp := fun hh => hid' hh.symm
        rw [sum_for_aset_ne _ _ _ _ hk, lookup0_aset_ne _ _ _ _ hid']
        exact hsums idp
    · intro idp
      dsimp only
      by_cases hid' : idp = id
      · subst hid'
        rw [lookup0_aset_self]
        have := hWb idp
        omega
      · rw [lookup0_aset_ne _ _ _ _ hid']
        exact hWb idp
    · intro p hp
      rcases mem_aset _ _ _ _ hp with hh | hh
      · rw [hh]
        exact hid
      · exact hbb p hh
    · intro p hp
      rcases mem_aset _ _ _ _ hp with hh | hh
      · rw [hh]
        exact hid
      · exact hbt p hh

theorem inv_andThen (x : Except Err Unit × St) (f : St → Except Err Unit × St)
    (hx : LedgerInv x.2) (hf : ∀ s, LedgerInv s → LedgerInv (f s).2) :
    LedgerInv (andThen x f).2 := by
  rcases x with ⟨r, s⟩
  cases r with
  | ok u => exact hf s hx
  | error e => exact hx

theorem inv_andThen_eq (x : Except Err Unit × St) (f : St → Except Err Unit × St) (n : Nat)
    (hx : LedgerInv x.2) (hn : x.2.next_asset_id = n)
    (hf : ∀ s, LedgerInv s → s.next_asset_id = n → LedgerInv (f s).2) :
    LedgerInv (andThen x f).2 := by
  rcases x with ⟨r, s⟩
  cases r with
  | ok u => exact hf s hx hn
  | error e => exact hx

theorem inv_create_exchange (o tid : Nat) (st : St) (h : LedgerInv st) :
    LedgerInv (create_exchange o tid st).2 := by
  unfold create_exchange
  dsimp only
  split_ifs with h1 h2
  · have hinv2 : LedgerInv (inner_issue (sub_account st.next_exchange_id) 0 zlk_info st).2 :=
      inv_inner_issue _ _ _ _ h (by norm_num [W128])
    have htid : tid < st.next_asset_id := by
      rcases Option.isSome_iff_exists.1 h1 with ⟨i, hi⟩
      exact h.2.2.2.2.2.1 _ (alookup_mem _ _ _ hi)
    refine ⟨hinv2.1, hinv2.2.1, hinv2.2.2.1, hinv2.2.2.2.1, hinv2.2.2.2.2.1,
      hinv2.2.2.2.2.2.1, ?_⟩
    intro q hq
    dsimp only at hq ⊢
    rcases mem_aset _ _ _ _ hq with hh | hh
    · rw [hh]
      exact ⟨Nat.lt_succ_of_lt htid, Nat.lt_succ_self _⟩
    · have := h.2.2.2.2.2.2 q hh
      exact ⟨Nat.lt_succ_of_lt this.1, Nat.lt_succ_of_lt this.2⟩
  · exact h
  · exact h

theorem inv_add_liquidity (o e ca ml mt dl : Nat) (st : St) (h : LedgerInv st) :
    LedgerInv (add_liquidity o e ca ml mt dl st).2 := by
  unfold add_liquidity
  dsimp only
  split_ifs <;> try exact h
  all_goals (split <;> try exact h)
  all_goals rename_i ex heq
  all_goals (split_ifs <;> try exact h)
  all_goals
    (have hbound := h.2.2.2.2.2.2 _ (alookup_mem _ _ _ heq)
     refine inv_andThen_eq _ _ st.next_asset_id (inv_currency_transfer _ _ _ _ _ h)
       ((currency_transfer_frame _ _ _ _ _).2.2.2.2.1) ?_
     intro s1 hs1 hn1
     refine inv_andThen _ _ (inv_inner_mint _ _ _ _ hs1 (by rw [hn1]; exact hbound.2)) ?_
     intro s2 hs2
     refine inv_andThen _ _ (inv_inner_transfer_from _ _ _ _ _ _ hs2) ?_
     intro s3 hs3
     exact inv_push_event _ _ hs3)

theorem inv_remove_liquidity (o e z mc mt dl : Nat) (st : St) (h : LedgerInv st) :
    LedgerInv (remove_liquidity o e z mc mt dl st).2 := by
  unfold remove_liquidity
  dsimp only
  split_ifs <;> try exact h
  all_goals (split <;> try exact h)
  all_goals rename_i ex heq
  all_goals (split_ifs <;> try exact h)
  all_goals
    (have hbound := h.2.2.2.2.2.2 _ (alookup_mem _ _ _ heq)
     refine inv_andThen _ _ (inv_inner_burn _ _ _ _ h hbound.2) ?_
     intro s1 hs1
     refine inv_andThen _ _ (inv_currency_transfer _ _ _ _ _ hs1) ?_
     intro s2 hs2
     refine inv_andThen _ _ (inv_inner_transfer _ _ _ _ _ hs2) ?_
     intro s3 hs3
     exact inv_push_event _ _ hs3)

theorem inv_currency_to_tokens_input (o e x mt dl r : Nat) (st : St) (h : LedgerInv st) :
    LedgerInv (currency_to_tokens_input o e x mt dl r st).2 := by
  unfold currency_to_tokens_input
  dsimp only
  split_ifs <;> try exact h
  all_goals (split <;> try exact h)
  all_goals (split_ifs <;> try exact h)
  all_goals
    (refine inv_andThen _ _ (inv_currency_transfer _ _ _ _ _ h) ?_
     intro s1 hs1
     refine inv_andThen _ _ (inv_inner_transfer _ _ _ _ _ hs1) ?_
     intro s2 hs2
     exact inv_push_event _ _ hs2)

theorem inv_currency_to_tokens_output (o e tb mc dl r : Nat) (st : St) (h : LedgerInv st) :
    LedgerInv (currency_to_tokens_output o e tb mc dl r st).2 := by
  unfold currency_to_tokens_output
  dsimp only
  split_ifs <;> try exact h
  all_goals (split <;> try exact h)
  all_goals (split_ifs <;> try exact h)
  all_goals
    (refine inv_andThen _ _ (inv_currency_transfer _ _ _ _ _ h) ?_
     intro s1 hs1
     refine inv_andThen _ _ (inv_inner_transfer _ _ _ _ _ hs1) ?_
     intro s2 hs2
     exact inv_push_event _ _ hs2)

theorem inv_tokens_to_currency_input (o e ts mc dl r : Nat) (st : St) (h : LedgerInv st) :
    LedgerInv (tokens_to_currency_input o e ts mc dl r st).2 := by
  unfold tokens_to_currency_input
  dsimp only
  split_ifs <;> try exact h
  all_goals (split <;> try exact h)
  all_goals (split_ifs <;> try exact h)
  all_goals
    (refine inv_andThen _ _ (inv_currency_transfer _ _ _ _ _ h) ?_
     intro s1 hs1
     refine inv_andThen _ _ (inv_inner_transfer_from _ _ _ _ _ _ hs1) ?_
     intro s2 hs2
     exact inv_push_event _ _ hs2)

theorem inv_tokens_to_currency_output (o e cb mt dl r : Nat) (st : St) (h : LedgerInv st) :
    LedgerInv (tokens_to_currency_output o e cb mt dl r st).2 := by
  unfold tokens_to_currency_output
  dsimp only
  split_ifs <;> try exact h
  all_goals (split <;> try exact h)
  all_goals (split_ifs <;> try exact h)
  all_goals
    (refine inv_andThen _ _ (inv_currency_transfer _ _ _ _ _ h) ?_
     intro s1 hs1
     refine inv_andThen _ _ (inv_inner_transfer_from _ _ _ _ _ _ hs1) ?_
     intro s2 hs2
     exact inv_push_event _ _ hs2)

theorem inv_token_to_token_input (o e oe ts mo dl r : Nat) (st : St) (h : LedgerInv st) :
    LedgerInv (token_to_token_input o e oe ts mo dl r st).2 := by
  unfold token_to_token_input
  dsimp only
  split_ifs <;> try exact h
  all_goals (split <;> try exact h)
  all_goals (split_ifs <;> try exact h)
  all_goals
    (refine inv_andThen _ _ (inv_inner_transfer_from _ _ _ _ _ _ h) ?_
     intro s1 hs1
     refine inv_andThen _ _ (inv_currency_transfer _ _ _ _ _ hs1) ?_
     intro s2 hs2
     refine inv_andThen _ _ (inv_inner_transfer _ _ _ _ _ hs2) ?_
     intro s3 hs3
     exact inv_push_event _ _ hs3)

theorem inv_token_to_token_output (o e oe ob mt dl r : Nat) (st : St) (h : LedgerInv st) :
    LedgerInv (token_to_token_output o e oe ob mt dl r st).2 := by
  unfold token_to_token_output
  dsimp only
  split_ifs <;> try exact h
  all_goals (split <;> try exact h)
  all_goals (split_ifs <;> try exact h)
  all_goals
    (refine inv_andThen _ _ (inv_inner_transfer_from _ _ _ _ _ _ h) ?_
     intro s1 hs1
     refine inv_andThen _ _ (inv_currency_transfer _ _ _ _ _ hs1) ?_
     intro s2 hs2
     refine inv_andThen _ _ (inv_inner_transfer _ _ _ _ _ hs2) ?_
     intro s3 hs3
     exact inv_push_event _ _ hs3)

theorem inv_allow (ow id sp a : Nat) (st : St) (h : LedgerInv st) :
    LedgerInv (allow ow id sp a st).2 :=
  inv_of_components st _ h rfl rfl rfl rfl rfl

theorem inv_apply_op (op : Op) (st : St) (h : LedgerInv st) (hw : op.wf) :
    LedgerInv (apply_op op st).2 := by
  cases op with
  | issue o t i => exact inv_issue o t i st h hw
  | transfer o id tg a => exact inv_transfer o id tg a st h
  | allow o id sp a => exact inv_allow o id sp a st h
  | transfer_from sp id ow tg a => exact inv_transfer_from sp id ow tg a st h
  | create_exchange o tid => exact inv_create_exchange o tid st h
  | add_liquidity o e ca ml mt dl => exact inv_add_liquidity o e ca ml mt dl st h
  | remove_liquidity o e z mc mt dl => exact inv_remove_liquidity o e z mc mt dl st h
  | currency_to_tokens_input o e cs mt dl r =>
      exact inv_currency_to_tokens_input o e cs mt dl r st h
  | currency_to_tokens_output o e tb mc dl r =>
      exact inv_currency_to_tokens_output o e tb mc dl r st h
  | tokens_to_currency_input o e ts mc dl r =>
      exact inv_tokens_to_currency_input o e ts mc dl r st h
  | tokens_to_currency_output o e cb mt dl r =>
      exact inv_tokens_to_currency_output o e cb mt dl r st h
  | token_to_token_input o e oe ts mo dl r =>
      exact inv_token_to_token_input o e oe ts mo dl r st h
  | token_to_token_output o e oe ob mt dl r =>
      exact inv_token_to_token_output o e oe ob mt dl r st h

theorem inv_init (free0 : List (Nat × Nat)) (bn : Nat) : LedgerInv (init_st free0 bn) := by
  refine ⟨List.nodup_nil, ?_, ?_, ?_, ?_, ?_, ?_⟩
  · intro id; rfl
  · intro id
    show (0 : Nat) < W128
    norm_num [W128]
  · intro p hp; simp [init_st] at hp
  · intro p hp; simp [init_st] at hp
  · intro p hp; simp [init_st] at hp
  · intro p hp; simp [init_st] at hp

theorem inv_run_ops (ops : List Op) (st : St) (h : LedgerInv st)
    (hw : ∀ op ∈ ops, op.wf) : LedgerInv (run_ops ops st) := by
  induction ops generalizing st with
  | nil => exact h
  | cons op rest ih =>
    exact ih (apply_op op st).2
      (inv_apply_op op st h (hw op (List.mem_cons_self op rest)))
      (fun q hq => hw q (List.mem_cons_of_mem op hq))

/-- Claim C2: after any finite sequence of ledger dispatchables (issue,
transfer, allow, transfer_from) and swap-engine dispatchables
(create_exchange, add/remove liquidity, the six swap variants) run from
genesis — keeping the partial states of failed dispatches — the recorded
total supply of every asset id equals the sum of all account balances of
that asset.  The only argument constraint is that `issue` totals fit in
the `u128` balance type, which the Rust signature enforces. -/
theorem c2_total_supply_conservation (ops : List Op) (free0 : List (Nat × Nat)) (bn : Nat)
    (hw : ∀ op ∈ ops, op.wf) (id : Nat) :
    sum_for (run_ops ops (init_st free0 bn)).balances id =
      lookup0 (run_ops ops (init_st free0 bn)).total_supply id :=
  (inv_run_ops ops (init_st free0 bn) (inv_init free0 bn) hw).2.1 id

/-- Witness for C2: a concrete sequence — issue, transfer, allow,
delegated transfer, a failing delegated transfer, pool creation and a
first liquidity provision — after which supply still equals the balance
sum for each of the two assets involved. -/
theorem c2_total_supply_conservation_witness :
    (∀ op ∈ [Op.issue 1 5000 zlk_info, Op.transfer 1 0 2 50, Op.allow 1 0 7 20,
        Op.transfer_from 7 0 1 3 10, Op.transfer_from 7 0 1 3 4000,
        Op.create_exchange 1 0, Op.allow 1 0 (sub_account 0) 1000,
        Op.add_liquidity 1 0 100 0 1000 9], Op.wf op) ∧
    sum_for (run_ops [Op.issue 1 5000 zlk_info, Op.transfer 1 0 2 50, Op.allow 1 0 7 20,
        Op.transfer_from 7 0 1 3 10, Op.transfer_from 7 0 1 3 4000,
        Op.create_exchange 1 0, Op.allow 1 0 (sub_account 0) 1000,
        Op.add_liquidity 1 0 100 0 1000 9] (init_st [(1, 10000)] 0)).balances 0 =
      lookup0 (run_ops [Op.issue 1 5000 zlk_info, Op.transfer 1 0 2 50, Op.allow 1 0 7 20,
        Op.transfer_from 7 0 1 3 10, Op.transfer_from 7 0 1 3 4000,
        Op.create_exchange 1 0, Op.allow 1 0 (sub_account 0) 1000,
        Op.add_liquidity 1 0 100 0 1000 9] (init_st [(1, 10000)] 0)).total_supply 0 ∧
    sum_for (run_ops [Op.issue 1 5000 zlk_info, Op.transfer 1 0 2 50, Op.allow 1 0 7 20,
        Op.transfer_from 7 0 1 3 10, Op.transfer_from 7 0 1 3 4000,
        Op.create_exchange 1 0, Op.allow 1 0 (sub_account 0) 1000,
        Op.add_liquidity 1 0 100 0 1000 9] (init_st [(1, 10000)] 0)).balances 1 =
      lookup0 (run_ops [Op.issue 1 5000 zlk_info, Op.transfer 1 0 2 50, Op.allow 1 0 7 20,
        Op.transfer_from 7 0 1 3 10, Op.transfer_from 7 0 1 3 4000,
        Op.create_exchange 1 0, Op.allow 1 0 (sub_account 0) 1000,
        Op.add_liquidity 1 0 100 0 1000 9] (init_st [(1, 10000)] 0)).total_supply 1 := by
  refine ⟨?_, ?_, ?_⟩
  · intro op hop
    fin_cases hop <;> first
      | trivial
      | (show 5000 < W128; norm_num [W128])
  · exact c2_total_supply_conservation _ [(1, 10000)] 0
      (by intro op hop
          fin_cases hop <;> first
            | trivial
            | (show 5000 < W128; norm_num [W128])) 0
  · exact c2_total_supply_conservation _ [(1, 10000)] 0
      (by intro op hop
          fin_cases hop <;> first
            | trivial
            | (show 5000 < W128; norm_num [W128])) 1
